import Mathlib

/-!
Verification development for the deterministic simulation core of the
falvarez1/Tetris engine.  The definitions below are a shallow embedding of
the TypeScript sources: `src/core/types/board.ts`, `src/core/types/tetromino.ts`,
`src/core/types/scoring.ts`, `src/core/types/gameState.ts`,
`src/core/engine/Collision.ts`, `src/core/engine/Rotation.ts` and
`src/core/engine/Board.ts`.  JavaScript numbers are embedded as `ℤ`/`ℚ`
(all values involved are exact), the sparse cell `Map` as the `Finset` of its
occupied keys (the stored cell payloads - piece tag, timestamp, garbage flag -
are never consulted by any verified property), and the impure fields
`lastModified`, `pendingClearRows`, `seed`, `input`, `modeState`,
`frameEvents` (never read by the simulation functions verified here) are
omitted from the state records.  `Math.random`-based bag refills are passed
in as explicit arguments.
-/

namespace Tetris

/-- TetrominoType from tetromino.ts: the 7 canonical piece types. -/
inductive TetrominoType : Type
| I | O | T | S | Z | J | L
deriving DecidableEq, Repr, Fintype

/-- Position from tetromino.ts: integer board coordinates (y grows upward). -/
structure Position : Type where
  x : ℤ
  y : ℤ
deriving DecidableEq, Repr

/-- RotationState from tetromino.ts: 0=spawn, 1=CW, 2=180, 3=CCW. -/
abbrev RotationState := Fin 4

/-- TETROMINO_SHAPES from tetromino.ts: per-rotation block offsets
relative to the pivot, transcribed verbatim. -/
def TETROMINO_SHAPES : TetrominoType → RotationState → List Position
| .I, 0 => [⟨-1, 0⟩, ⟨0, 0⟩, ⟨1, 0⟩, ⟨2, 0⟩]
| .I, 1 => [⟨1, -1⟩, ⟨1, 0⟩, ⟨1, 1⟩, ⟨1, 2⟩]
| .I, 2 => [⟨-1, 1⟩, ⟨0, 1⟩, ⟨1, 1⟩, ⟨2, 1⟩]
| .I, 3 => [⟨0, -1⟩, ⟨0, 0⟩, ⟨0, 1⟩, ⟨0, 2⟩]
| .O, _ => [⟨0, 0⟩, ⟨1, 0⟩, ⟨0, 1⟩, ⟨1, 1⟩]
| .T, 0 => [⟨-1, 0⟩, ⟨0, 0⟩, ⟨1, 0⟩, ⟨0, -1⟩]
| .T, 1 => [⟨0, -1⟩, ⟨0, 0⟩, ⟨0, 1⟩, ⟨1, 0⟩]
| .T, 2 => [⟨-1, 0⟩, ⟨0, 0⟩, ⟨1, 0⟩, ⟨0, 1⟩]
| .T, 3 => [⟨0, -1⟩, ⟨0, 0⟩, ⟨0, 1⟩, ⟨-1, 0⟩]
| .S, 0 => [⟨0, 0⟩, ⟨1, 0⟩, ⟨-1, 1⟩, ⟨0, 1⟩]
| .S, 1 => [⟨0, -1⟩, ⟨0, 0⟩, ⟨1, 0⟩, ⟨1, 1⟩]
| .S, 2 => [⟨0, 0⟩, ⟨1, 0⟩, ⟨-1, 1⟩, ⟨0, 1⟩]
| .S, 3 => [⟨-1, -1⟩, ⟨-1, 0⟩, ⟨0, 0⟩, ⟨0, 1⟩]
| .Z, 0 => [⟨-1, 0⟩, ⟨0, 0⟩, ⟨0, 1⟩, ⟨1, 1⟩]
| .Z, 1 => [⟨1, -1⟩, ⟨0, 0⟩, ⟨1, 0⟩, ⟨0, 1⟩]
| .Z, 2 => [⟨-1, 0⟩, ⟨0, 0⟩, ⟨0, 1⟩, ⟨1, 1⟩]
| .Z, 3 => [⟨0, -1⟩, ⟨-1, 0⟩, ⟨0, 0⟩, ⟨-1, 1⟩]
| .J, 0 => [⟨-1, -1⟩, ⟨-1, 0⟩, ⟨0, 0⟩, ⟨1, 0⟩]
| .J, 1 => [⟨0, -1⟩, ⟨1, -1⟩, ⟨0, 0⟩, ⟨0, 1⟩]
| .J, 2 => [⟨-1, 0⟩, ⟨0, 0⟩, ⟨1, 0⟩, ⟨1, 1⟩]
| .J, 3 => [⟨0, -1⟩, ⟨0, 0⟩, ⟨-1, 1⟩, ⟨0, 1⟩]
| .L, 0 => [⟨1, -1⟩, ⟨-1, 0⟩, ⟨0, 0⟩, ⟨1, 0⟩]
| .L, 1 => [⟨0, -1⟩, ⟨0, 0⟩, ⟨0, 1⟩, ⟨1, 1⟩]
| .L, 2 => [⟨-1, 0⟩, ⟨0, 0⟩, ⟨1, 0⟩, ⟨-1, 1⟩]
| .L, 3 => [⟨-1, -1⟩, ⟨0, -1⟩, ⟨0, 0⟩, ⟨0, 1⟩]

/-- WALL_KICKS_JLSTZ from tetromino.ts, keyed by (from, to) rotation;
the source `Record` has exactly the eight 90-degree transitions, the
catch-all is never queried. -/
def WALL_KICKS_JLSTZ : RotationState → RotationState → List Position
| 0, 1 => [⟨0, 0⟩, ⟨-1, 0⟩, ⟨-1, -1⟩, ⟨0, 2⟩, ⟨-1, 2⟩]
| 1, 0 => [⟨0, 0⟩, ⟨1, 0⟩, ⟨1, 1⟩, ⟨0, -2⟩, ⟨1, -2⟩]
| 1, 2 => [⟨0, 0⟩, ⟨1, 0⟩, ⟨1, 1⟩, ⟨0, -2⟩, ⟨1, -2⟩]
| 2, 1 => [⟨0, 0⟩, ⟨-1, 0⟩, ⟨-1, -1⟩, ⟨0, 2⟩, ⟨-1, 2⟩]
| 2, 3 => [⟨0, 0⟩, ⟨1, 0⟩, ⟨1, -1⟩, ⟨0, 2⟩, ⟨1, 2⟩]
| 3, 2 => [⟨0, 0⟩, ⟨-1, 0⟩, ⟨-1, 1⟩, ⟨0, -2⟩, ⟨-1, -2⟩]
| 3, 0 => [⟨0, 0⟩, ⟨-1, 0⟩, ⟨-1, 1⟩, ⟨0, -2⟩, ⟨-1, -2⟩]
| 0, 3 => [⟨0, 0⟩, ⟨1, 0⟩, ⟨1, -1⟩, ⟨0, 2⟩, ⟨1, 2⟩]
| _, _ => []

/-- WALL_KICKS_I from tetromino.ts. -/
def WALL_KICKS_I : RotationState → RotationState → List Position
| 0, 1 => [⟨0, 0⟩, ⟨-2, 0⟩, ⟨1, 0⟩, ⟨-2, 1⟩, ⟨1, -2⟩]
| 1, 0 => [⟨0, 0⟩, ⟨2, 0⟩, ⟨-1, 0⟩, ⟨2, -1⟩, ⟨-1, 2⟩]
| 1, 2 => [⟨0, 0⟩, ⟨-1, 0⟩, ⟨2, 0⟩, ⟨-1, -2⟩, ⟨2, 1⟩]
| 2, 1 => [⟨0, 0⟩, ⟨1, 0⟩, ⟨-2, 0⟩, ⟨1, 2⟩, ⟨-2, -1⟩]
| 2, 3 => [⟨0, 0⟩, ⟨2, 0⟩, ⟨-1, 0⟩, ⟨2, -1⟩, ⟨-1, 2⟩]
| 3, 2 => [⟨0, 0⟩, ⟨-2, 0⟩, ⟨1, 0⟩, ⟨-2, 1⟩, ⟨1, -2⟩]
| 3, 0 => [⟨0, 0⟩, ⟨1, 0⟩, ⟨-2, 0⟩, ⟨1, 2⟩, ⟨-2, -1⟩]
| 0, 3 => [⟨0, 0⟩, ⟨-1, 0⟩, ⟨2, 0⟩, ⟨-1, -2⟩, ⟨2, 1⟩]
| _, _ => []

/-- WALL_KICKS_O from tetromino.ts: the O piece only has the zero offset. -/
def WALL_KICKS_O : RotationState → RotationState → List Position
| _, _ => [⟨0, 0⟩]

/-- getWallKicks from tetromino.ts. -/
def getWallKicks (type : TetrominoType) : RotationState → RotationState → List Position :=
  if type = .I then WALL_KICKS_I
  else if type = .O then WALL_KICKS_O
  else WALL_KICKS_JLSTZ

/-- LockDelay sub-record of ActivePiece from tetromino.ts. -/
structure LockDelayState : Type where
  active : Bool
  remaining : ℚ
  moveResets : ℕ
  maxResets : ℕ
deriving DecidableEq, Repr

/-- ActivePiece from tetromino.ts. -/
structure ActivePiece : Type where
  type : TetrominoType
  position : Position
  rotation : RotationState
  ghostY : ℤ
  lockDelay : LockDelayState
  softDropCells : ℕ
deriving DecidableEq, Repr

/-- PieceBag from tetromino.ts. -/
structure PieceBag : Type where
  current : List TetrominoType
  next : List TetrominoType
  preview : List TetrominoType
deriving DecidableEq, Repr

/-- getPieceBlocks from tetromino.ts: absolute block positions of a piece. -/
def getPieceBlocks (piece : ActivePiece) : List Position :=
  (TETROMINO_SHAPES piece.type piece.rotation).map
    (fun off => ⟨piece.position.x + off.x, piece.position.y + off.y⟩)

/-- PIECE_TYPES: the canonical 7-type list used by createBag in tetromino.ts. -/
def PIECE_TYPES : List TetrominoType := [.I, .O, .T, .S, .Z, .J, .L]

/-- getNextPiece from tetromino.ts.  The `Math.random`-driven `createBag()`
refill is supplied as the explicit `refill` argument.  The source pops
`current` with a non-null assertion (`shift()!`); the empty-current case is
unreachable under the bag invariant and is modelled as a no-op draw of `I`. -/
def getNextPiece (refill : List TetrominoType) (bag : PieceBag) :
    TetrominoType × PieceBag :=
  match bag.current with
  | [] => (.I, bag)
  | p :: rest =>
    let current2 := if rest.isEmpty then bag.next else rest
    let next2 := if rest.isEmpty then refill else bag.next
    let preview1 := bag.preview.tail
    let allPieces := current2 ++ next2
    let preview2 :=
      if preview1.length < bag.preview.length ∧ preview1.length < allPieces.length
      then preview1 ++ [allPieces.getD preview1.length .I]
      else preview1
    (p, ⟨current2, next2, preview2⟩)

/-- BoardConfig from board.ts. -/
structure BoardConfig : Type where
  width : ℕ
  height : ℕ
  bufferRows : ℕ
deriving DecidableEq, Repr

/-- DEFAULT_BOARD_CONFIG from board.ts. -/
def DEFAULT_BOARD_CONFIG : BoardConfig := ⟨10, 20, 4⟩

/-- Total grid height: visible height plus hidden buffer rows (board.ts
computes `height + bufferRows` inline at each use). -/
def totalHeight (config : BoardConfig) : ℕ := config.height + config.bufferRows

/-- BoardState from board.ts.  `cells` is the key set of the sparse
`Map<string, CellState>`; the cell payloads are irrelevant to every
property verified here. -/
structure BoardState : Type where
  config : BoardConfig
  cells : Finset (ℤ × ℤ)
deriving DecidableEq

/-- WellFormed: the data-model invariant of board.ts that all stored cell
coordinates are in-bounds. -/
def WellFormed (board : BoardState) : Prop :=
  ∀ p ∈ board.cells,
    0 ≤ p.1 ∧ p.1 < (board.config.width : ℤ) ∧
    0 ≤ p.2 ∧ p.2 < (totalHeight board.config : ℤ)

/-- isValidPosition from board.ts: in-bounds check. -/
def isValidPosition (board : BoardState) (x y : ℤ) : Bool :=
  decide (0 ≤ x ∧ x < (board.config.width : ℤ) ∧
          0 ≤ y ∧ y < (totalHeight board.config : ℤ))

/-- isCellOccupied from board.ts: sparse-map key lookup. -/
def isCellOccupied (board : BoardState) (x y : ℤ) : Bool :=
  decide ((x, y) ∈ board.cells)

/-- rowFilled: the inner loop of getFilledRows in board.ts deciding whether
every cell of row `y` is occupied. -/
def rowFilled (board : BoardState) (y : ℤ) : Bool :=
  decide (∀ x ∈ Finset.Ico (0 : ℤ) (board.config.width : ℤ), (x, y) ∈ board.cells)

/-- intRange: the row indices 0, 1, ..., n-1 as integers (the row-scan
order of board.ts). -/
def intRange (n : ℕ) : List ℤ := (List.range n).map Nat.cast

/-- getFilledRows from board.ts: ascending list of fully occupied rows. -/
def getFilledRows (board : BoardState) : List ℤ :=
  (intRange (totalHeight board.config)).filter (fun y => rowFilled board y)

/-- keptRows: the rows that survive a clear, in ascending order (the
read-cursor order of the compaction loop in clearRows, board.ts). -/
def keptRows (board : BoardState) (rows : List ℤ) : List ℤ :=
  (intRange (totalHeight board.config)).filter (fun y => decide (y ∉ rows))

/-- clearRows from board.ts: remove the given rows and compact every column
downward.  The source walks each column bottom-to-top with a write cursor
that skips cleared rows; cell (x, w) of the result is therefore occupied
exactly when cell (x, keptRows[w]) was. -/
def clearRows (board : BoardState) (rows : List ℤ) : BoardState :=
  if rows = [] then board
  else
    let kept := keptRows board rows
    { board with
      cells :=
        ((Finset.Ico (0 : ℤ) (board.config.width : ℤ)) ×ˢ
          (Finset.Ico (0 : ℤ) (kept.length : ℤ))).filter
          (fun p => (p.1, kept.getD p.2.toNat 0) ∈ board.cells) }

/-- lockPiece from board.ts: insert the piece's cells into the board. -/
def lockPiece (board : BoardState) (positions : List Position) : BoardState :=
  { board with
    cells := board.cells ∪ (positions.map (fun p => (p.x, p.y))).toFinset }

/-- getHighestOccupiedRow from board.ts: the maximal occupied y, or -1 on an
empty board. -/
def getHighestOccupiedRow (board : BoardState) : ℤ :=
  ((board.cells.image Prod.snd).max).unbot' (-1)

/-- isPerfectClear from Collision.ts: the board holds no cells. -/
def isPerfectClear (board : BoardState) : Bool :=
  decide (board.cells = ∅)

/-- isValidPiecePosition from Collision.ts: every block in-bounds and
unoccupied. -/
def isValidPiecePosition (board : BoardState) (piece : ActivePiece) : Bool :=
  (getPieceBlocks piece).all
    (fun block => isValidPosition board block.x block.y &&
                  !isCellOccupied board block.x block.y)

/-- canPlacePiece from Collision.ts: hypothetical placement legality. -/
def canPlacePiece (board : BoardState) (type : TetrominoType)
    (position : Position) (rotation : RotationState) : Bool :=
  (TETROMINO_SHAPES type rotation).all
    (fun off => isValidPosition board (position.x + off.x) (position.y + off.y) &&
                !isCellOccupied board (position.x + off.x) (position.y + off.y))

/-- canMove from Collision.ts. -/
def canMove (board : BoardState) (piece : ActivePiece) (dx dy : ℤ) : Bool :=
  canPlacePiece board piece.type
    ⟨piece.position.x + dx, piece.position.y + dy⟩ piece.rotation

/-- tryMove from Collision.ts: `null` on an illegal move becomes `none`. -/
def tryMove (board : BoardState) (piece : ActivePiece) (dx dy : ℤ) :
    Option ActivePiece :=
  if canMove board piece dx dy then
    some { piece with position := ⟨piece.position.x + dx, piece.position.y + dy⟩ }
  else none

/-- isOnGround from Collision.ts. -/
def isOnGround (board : BoardState) (piece : ActivePiece) : Bool :=
  !canMove board piece 0 (-1)

/-- ghostLoop: the descending while-loop of calculateGhostY in Collision.ts,
given enough fuel.  The loop always terminates because a placement with
`y` below the floor is invalid; the fuel chosen in `calculateGhostY` exceeds
the maximal possible number of iterations. -/
def ghostLoop (board : BoardState) (type : TetrominoType) (x : ℤ)
    (rotation : RotationState) : ℕ → ℤ → ℤ
| 0, y => y
| fuel + 1, y =>
  if canPlacePiece board type ⟨x, y - 1⟩ rotation then
    ghostLoop board type x rotation fuel (y - 1)
  else y

/-- calculateGhostY from Collision.ts: lowest y reachable straight down. -/
def calculateGhostY (board : BoardState) (piece : ActivePiece) : ℤ :=
  ghostLoop board piece.type piece.position.x piece.rotation
    (piece.position.y + (totalHeight board.config : ℤ) + 4).toNat piece.position.y

/-- getDropPositions from Collision.ts (dropDistance component). -/
def getDropDistance (board : BoardState) (piece : ActivePiece) : ℤ :=
  piece.position.y - calculateGhostY board piece

/-- TSpinResult: the record returned by detectTSpin in Collision.ts. -/
structure TSpinResult : Type where
  isTSpin : Bool
  isMini : Bool
deriving DecidableEq, Repr

/-- cornerOccupied: the "filled or out of bounds" corner test used twice
inside detectTSpin in Collision.ts. -/
def cornerOccupied (board : BoardState) (corner : Position) : Bool :=
  !isValidPosition board corner.x corner.y || isCellOccupied board corner.x corner.y

/-- tSpinCorners: the four diagonal cells around the T pivot, in the order
top-left, top-right, bottom-left, bottom-right (Collision.ts). -/
def tSpinCorners (piece : ActivePiece) : List Position :=
  [⟨piece.position.x - 1, piece.position.y + 1⟩,
   ⟨piece.position.x + 1, piece.position.y + 1⟩,
   ⟨piece.position.x - 1, piece.position.y - 1⟩,
   ⟨piece.position.x + 1, piece.position.y - 1⟩]

/-- getFrontCornerIndices from Collision.ts. -/
def getFrontCornerIndices : RotationState → List ℕ
| 0 => [0, 1]
| 1 => [1, 3]
| 2 => [2, 3]
| 3 => [0, 2]

/-- detectTSpin from Collision.ts: needs a T piece and at least 3 filled
corners; mini unless both front corners are filled or the rotation was a
wall kick with kick index 4. -/
def detectTSpin (board : BoardState) (piece : ActivePiece)
    (wasWallKick : Bool) (kickIndex : ℤ) : TSpinResult :=
  if piece.type ≠ .T then ⟨false, false⟩
  else
    let corners := tSpinCorners piece
    let filledCorners := (corners.filter (fun c => cornerOccupied board c)).length
    if filledCorners < 3 then ⟨false, false⟩
    else
      let frontCornersFilled :=
        ((getFrontCornerIndices piece.rotation).filter
          (fun idx => cornerOccupied board (corners.getD idx ⟨0, 0⟩))).length
      ⟨true, decide (frontCornersFilled < 2) && !(wasWallKick && decide (kickIndex = 4))⟩

/-- RotationDirection from Rotation.ts. -/
inductive RotationDirection : Type
| cw | ccw | half
deriving DecidableEq, Repr

/-- RotationResult from Rotation.ts. -/
structure RotationResult : Type where
  success : Bool
  newPiece : Option ActivePiece
  wasWallKick : Bool
  kickIndex : ℤ
deriving DecidableEq, Repr

/-- getNewRotation from Rotation.ts: cw +1, ccw +3, 180 +2, all mod 4. -/
def getNewRotation (current : RotationState) : RotationDirection → RotationState
| .cw => ⟨(current.val + 1) % 4, Nat.mod_lt _ (by omega)⟩
| .ccw => ⟨(current.val + 3) % 4, Nat.mod_lt _ (by omega)⟩
| .half => ⟨(current.val + 2) % 4, Nat.mod_lt _ (by omega)⟩

/-- findKick: the indexed kick-search loop of tryRotate in Rotation.ts,
returning the first offset whose placement is legal together with its index. -/
def findKick (board : BoardState) (type : TetrominoType) (pos : Position)
    (newRotation : RotationState) : List Position → ℤ → Option (Position × ℤ)
| [], _ => none
| k :: rest, i =>
  let candidate : Position := ⟨pos.x + k.x, pos.y + k.y⟩
  if canPlacePiece board type candidate newRotation then some (candidate, i)
  else findKick board type pos newRotation rest (i + 1)

/-- tryRotate90: the 90-degree branch of tryRotate in Rotation.ts (the
kick-table search; `wasWallKick` iff a non-zero kick index won). -/
def tryRotate90 (board : BoardState) (piece : ActivePiece)
    (direction : RotationDirection) : RotationResult :=
  let newRotation := getNewRotation piece.rotation direction
  let kicks := getWallKicks piece.type piece.rotation newRotation
  match findKick board piece.type piece.position newRotation kicks 0 with
  | some (newPosition, i) =>
    ⟨true, some { piece with position := newPosition, rotation := newRotation },
     decide (0 < i), i⟩
  | none => ⟨false, none, false, -1⟩

/-- tryRotate from Rotation.ts.  A 180 rotation tries CW twice, then CCW
twice, then a raw zero-offset 180 placement (the source recurses into
itself with 'cw'/'ccw', which is exactly `tryRotate90`). -/
def tryRotate (board : BoardState) (piece : ActivePiece) :
    RotationDirection → RotationResult
| .half =>
  let cwFirst := tryRotate90 board piece .cw
  let viaCW : Option RotationResult :=
    match cwFirst.newPiece with
    | some p1 =>
      let cwSecond := tryRotate90 board p1 .cw
      if cwSecond.success then some cwSecond else none
    | none => none
  match viaCW with
  | some r => r
  | none =>
    let ccwFirst := tryRotate90 board piece .ccw
    let viaCCW : Option RotationResult :=
      match ccwFirst.newPiece with
      | some p1 =>
        let ccwSecond := tryRotate90 board p1 .ccw
        if ccwSecond.success then some ccwSecond else none
      | none => none
    match viaCCW with
    | some r => r
    | none =>
      let newRotation := getNewRotation piece.rotation .half
      if canPlacePiece board piece.type piece.position newRotation then
        ⟨true, some { piece with rotation := newRotation }, false, 0⟩
      else ⟨false, none, false, -1⟩
| d => tryRotate90 board piece d

/-- rotatePiece from Rotation.ts: project a successful RotationResult. -/
def rotatePiece (board : BoardState) (piece : ActivePiece)
    (direction : RotationDirection) : Option (ActivePiece × Bool × ℤ) :=
  let result := tryRotate board piece direction
  match result.newPiece with
  | some p => if result.success then some (p, result.wasWallKick, result.kickIndex) else none
  | none => none

/-- ClearType from scoring.ts. -/
inductive ClearType : Type
| single | double | triple | tetris
| tSpinMini | tSpinSingle | tSpinDouble | tSpinTriple
| perfectClear
deriving DecidableEq, Repr

/-- ScoringConfig from scoring.ts (basePoints as a total function on
ClearType, mirroring the source `Record`). -/
structure ScoringConfig : Type where
  basePoints : ClearType → ℚ
  softDropPoints : ℚ
  hardDropPoints : ℚ
  comboBonus : ℚ
  backToBackMultiplier : ℚ
  linesPerLevel : ℕ
  maxLevel : ℕ

/-- DEFAULT_SCORING_CONFIG from scoring.ts. -/
def DEFAULT_SCORING_CONFIG : ScoringConfig where
  basePoints
  | .single => 100
  | .double => 300
  | .triple => 500
  | .tetris => 800
  | .tSpinMini => 100
  | .tSpinSingle => 800
  | .tSpinDouble => 1200
  | .tSpinTriple => 1600
  | .perfectClear => 3000
  softDropPoints := 1
  hardDropPoints := 2
  comboBonus := 50
  backToBackMultiplier := 1.5
  linesPerLevel := 10
  maxLevel := 15

/-- HeatConfig from scoring.ts. -/
structure HeatConfig : Type where
  clearHeat : ClearType → ℚ
  comboMultiplier : ℚ
  backToBackMultiplier : ℚ
  decayPerSecond : ℚ
  maxHeat : ℚ

/-- DEFAULT_HEAT_CONFIG from scoring.ts. -/
def DEFAULT_HEAT_CONFIG : HeatConfig where
  clearHeat
  | .single => 0.08
  | .double => 0.15
  | .triple => 0.25
  | .tetris => 0.40
  | .tSpinMini => 0.20
  | .tSpinSingle => 0.30
  | .tSpinDouble => 0.45
  | .tSpinTriple => 0.60
  | .perfectClear => 0.80
  comboMultiplier := 0.05
  backToBackMultiplier := 1.5
  decayPerSecond := 0.08
  maxHeat := 1.0

/-- calculateClearPoints from scoring.ts: base x level, plus combo bonus
when the combo count is positive, floored after the 1.5x back-to-back
multiplier. -/
def calculateClearPoints (clearType : ClearType) (level : ℕ) (comboCount : ℕ)
    (isBackToBack : Bool) (config : ScoringConfig) : ℚ :=
  let points := config.basePoints clearType * level
  let points := if 0 < comboCount then points + config.comboBonus * comboCount * level
                else points
  if isBackToBack then (⌊points * config.backToBackMultiplier⌋ : ℤ) else points

/-- getClearType from scoring.ts: clear classification from line count and
spin flags. -/
def getClearType (lineCount : ℕ) (isTSpin : Bool) (isMini : Bool) : ClearType :=
  if isTSpin then
    if isMini then .tSpinMini
    else match lineCount with
      | 1 => .tSpinSingle
      | 2 => .tSpinDouble
      | 3 => .tSpinTriple
      | _ => .tSpinMini
  else match lineCount with
    | 1 => .single
    | 2 => .double
    | 3 => .triple
    | 4 => .tetris
    | _ => .single

/-- isDifficultClear from scoring.ts: tetris or any t-spin variant. -/
def isDifficultClear : ClearType → Bool
| .tetris => true
| .tSpinMini => true
| .tSpinSingle => true
| .tSpinDouble => true
| .tSpinTriple => true
| _ => false

/-- calculateHeatContribution from scoring.ts. -/
def calculateHeatContribution (clearType : ClearType) (comboCount : ℕ)
    (isBackToBack : Bool) (config : HeatConfig) : ℚ :=
  let heat := config.clearHeat clearType
  let heat := heat + heat * config.comboMultiplier * comboCount
  let heat := if isBackToBack then heat * config.backToBackMultiplier else heat
  min heat config.maxHeat

/-- decayHeat from scoring.ts: linear decay per elapsed second, floored
at zero. -/
def decayHeat (currentHeat : ℚ) (deltaMs : ℚ) (config : HeatConfig) : ℚ :=
  max 0 (currentHeat - config.decayPerSecond * (deltaMs / 1000))

/-- ScoreState from scoring.ts. -/
structure ScoreState : Type where
  score : ℚ
  level : ℕ
  linesCleared : ℕ
  linesAtLevel : ℕ
  linesToNextLevel : ℤ
deriving DecidableEq, Repr

/-- ComboState from scoring.ts. -/
structure ComboState : Type where
  comboCount : ℕ
  backToBack : ℕ
  backToBackActive : Bool
  perfectClears : ℕ
deriving DecidableEq, Repr

/-- ClearEvent from scoring.ts. -/
structure ClearEvent : Type where
  type : ClearType
  lines : List ℤ
  timestamp : ℚ
  backToBack : Bool
  comboCount : ℕ
  points : ℚ
  heatContribution : ℚ
deriving DecidableEq, Repr

/-- StreakState from scoring.ts. -/
structure StreakState : Type where
  heatLevel : ℚ
  peakHeat : ℚ
  timeSinceLastClear : ℚ
  recentClears : List ClearEvent
deriving DecidableEq, Repr

/-- GamePhase from gameState.ts. -/
inductive GamePhase : Type
| menu | countdown | playing | clearing | paused | gameOver | victory
deriving DecidableEq, Repr

/-- TimingState from gameState.ts. -/
structure TimingState : Type where
  gameTime : ℚ
  lastUpdateTime : ℚ
  gravityAccumulator : ℚ
  gravitySpeed : ℚ
  baseGravity : ℚ
deriving DecidableEq, Repr

/-- HoldState from gameState.ts. -/
structure HoldState : Type where
  piece : Option TetrominoType
  available : Bool
deriving DecidableEq, Repr

/-- GameConfig from gameState.ts. -/
structure GameConfig : Type where
  boardWidth : ℕ
  boardHeight : ℕ
  previewCount : ℕ
  startLevel : ℕ
  linesPerLevel : ℕ
  maxLevel : ℕ
  lockDelay : ℚ
  lockDelayResets : ℕ
  das : ℚ
  arr : ℚ
  softDropMultiplier : ℚ
  holdEnabled : Bool
  ghostEnabled : Bool
deriving DecidableEq, Repr

/-- DEFAULT_GAME_CONFIG from gameState.ts. -/
def DEFAULT_GAME_CONFIG : GameConfig where
  boardWidth := 10
  boardHeight := 20
  previewCount := 3
  startLevel := 1
  linesPerLevel := 10
  maxLevel := 15
  lockDelay := 500
  lockDelayResets := 15
  das := 170
  arr := 50
  softDropMultiplier := 20
  holdEnabled := true
  ghostEnabled := true

/-- calculateGravity from gameState.ts: guideline exponential formula with
the level clamped at 20 (cells per second). -/
def calculateGravity (level : ℕ) : ℚ :=
  let clampedLevel := min level 20
  let secondsPerCell := (0.8 - ((clampedLevel : ℚ) - 1) * 0.007) ^ (clampedLevel - 1)
  1 / secondsPerCell

/-- GameState from gameState.ts, restricted to the fields the simulation
core reads or writes (`input`, `modeState`, `frameEvents`, `seed` are
carried through every transition untouched and omitted here). -/
structure GameState : Type where
  phase : GamePhase
  board : BoardState
  activePiece : Option ActivePiece
  hold : HoldState
  bag : PieceBag
  score : ScoreState
  combo : ComboState
  streak : StreakState
  timing : TimingState
deriving DecidableEq

/-- MoveDirection: the direction tag of a piece-move event (events.ts). -/
inductive MoveDirection : Type
| left | right | down
deriving DecidableEq, Repr

/-- GameEvent from events.ts, restricted to the variants the simulation
core emits. -/
inductive GameEvent : Type
| pieceSpawn (piece : TetrominoType)
| pieceMove (direction : MoveDirection) (position : Position)
| pieceRotate (rotation : RotationState) (wasWallKick : Bool) (kickIndex : ℤ)
| pieceLock (positions : List Position) (piece : TetrominoType)
| pieceHold (swapped : Option TetrominoType) (held : TetrominoType)
| hardDrop (startY endY cells : ℤ)
| softDrop (cells : ℕ)
| linesClear (event : ClearEvent)
| levelUp (newLevel previousLevel : ℕ)
| combo (count : ℕ)
| backToBack (count : ℕ)
| perfectClear (points : ℚ)
| gameOver (finalScore : ℚ) (finalLevel : ℕ) (linesCleared : ℕ)
| heatChange (heat delta previousHeat : ℚ)
| dangerZone (active : Bool) (intensity : ℚ)
deriving DecidableEq, Repr

/-- isGameOverEvent: recognizer for the game-over event variant. -/
def GameEvent.isGameOverEvent : GameEvent → Bool
| .gameOver _ _ _ => true
| _ => false

/-- InputActions from Board.ts: resolved per-tick action flags. -/
structure InputActions : Type where
  moveLeft : Bool
  moveRight : Bool
  softDrop : Bool
  hardDrop : Bool
  rotateCW : Bool
  rotateCCW : Bool
  rotate180 : Bool
  hold : Bool
deriving DecidableEq, Repr

/-- UpdateResult from Board.ts. -/
structure UpdateResult : Type where
  state : GameState
  events : List GameEvent
deriving DecidableEq

/-- spawnPiece from Board.ts: centered spawn just above the visible area,
`none` on block-out. -/
def spawnPiece (board : BoardState) (type : TetrominoType)
    (config : GameConfig) : Option ActivePiece :=
  let spawnX : ℤ := ((board.config.width / 2 : ℕ) : ℤ) - 1
  let spawnY : ℤ := (board.config.height : ℤ)
  let piece0 : ActivePiece :=
    { type := type, position := ⟨spawnX, spawnY⟩, rotation := 0, ghostY := 0,
      lockDelay := ⟨false, config.lockDelay, 0, config.lockDelayResets⟩,
      softDropCells := 0 }
  let piece := { piece0 with ghostY := calculateGhostY board piece0 }
  if !isValidPiecePosition board piece then none else some piece

/-- spawnNextPiece from Board.ts: draw from the bag and spawn. -/
def spawnNextPiece (refill : List TetrominoType) (board : BoardState)
    (bag : PieceBag) (config : GameConfig) : Option ActivePiece × PieceBag :=
  let r := getNextPiece refill bag
  (spawnPiece board r.1 config, r.2)

/-- lockActivePiece from Board.ts: board with the piece's cells inserted,
plus the locked positions. -/
def lockActivePiece (board : BoardState) (piece : ActivePiece) :
    BoardState × List Position :=
  (lockPiece board (getPieceBlocks piece), getPieceBlocks piece)

/-- processLineClears from Board.ts. -/
def processLineClears (board : BoardState) : BoardState × List ℤ :=
  let clearedRows := getFilledRows board
  if clearedRows = [] then (board, [])
  else (clearRows board clearedRows, clearedRows)

/-- getDangerLevel from Board.ts: 0-1 scale based on stack height. -/
def getDangerLevel (board : BoardState) : ℚ :=
  let highestRow := getHighestOccupiedRow board
  if highestRow = -1 then 0
  else
    let dangerThreshold : ℤ := (board.config.height : ℤ) - 8
    if highestRow < dangerThreshold then 0
    else
      let dangerRange : ℤ := (board.config.height : ℤ) - dangerThreshold
      min 1 (((highestRow - dangerThreshold : ℤ) : ℚ) / ((dangerRange : ℤ) : ℚ))

/-- updateGhostY from Board.ts. -/
def updateGhostY (board : BoardState) (piece : ActivePiece) : ActivePiece :=
  { piece with ghostY := calculateGhostY board piece }

/-- resetLockDelay from Board.ts: refresh the timer unless the move-reset
cap is exhausted. -/
def resetLockDelay (piece : ActivePiece) (config : GameConfig) : ActivePiece :=
  if piece.lockDelay.maxResets ≤ piece.lockDelay.moveResets then piece
  else
    { piece with lockDelay :=
      { piece.lockDelay with
        remaining := config.lockDelay
        moveResets := piece.lockDelay.moveResets + 1 } }

/-- activateLockDelay from Board.ts. -/
def activateLockDelay (piece : ActivePiece) : ActivePiece :=
  if piece.lockDelay.active then piece
  else { piece with lockDelay := { piece.lockDelay with active := true } }

/-- deactivateLockDelay from Board.ts. -/
def deactivateLockDelay (piece : ActivePiece) : ActivePiece :=
  if !piece.lockDelay.active then piece
  else { piece with lockDelay := { piece.lockDelay with active := false } }

/-- updateLockDelay from Board.ts. -/
def updateLockDelay (piece : ActivePiece) (deltaMs : ℚ) : ActivePiece :=
  if !piece.lockDelay.active then piece
  else { piece with lockDelay :=
         { piece.lockDelay with remaining := piece.lockDelay.remaining - deltaMs } }

/-- isLockDelayExpired from Board.ts. -/
def isLockDelayExpired (piece : ActivePiece) : Bool :=
  piece.lockDelay.active && decide (piece.lockDelay.remaining ≤ 0)

/-- processHold from Board.ts: swap with the held piece (bag untouched), or
stash the current piece and draw the next from the bag. -/
def processHold (refill : List TetrominoType) (state : GameState)
    (config : GameConfig) : UpdateResult :=
  match state.activePiece with
  | none => ⟨state, []⟩
  | some active =>
    if !state.hold.available then ⟨state, []⟩
    else
      let currentType := active.type
      match state.hold.piece with
      | some heldType =>
        let sp := spawnNextPiece refill state.board
          { state.bag with current := heldType :: state.bag.current } config
        match sp.1 with
        | some newPiece =>
          let spawnedPiece :=
            { newPiece with
              type := heldType
              ghostY := calculateGhostY state.board { newPiece with type := heldType } }
          ⟨{ state with
             activePiece := some spawnedPiece
             hold := ⟨some currentType, false⟩ },
           [.pieceHold (some heldType) currentType]⟩
        | none => ⟨state, []⟩
      | none =>
        let sp := spawnNextPiece refill state.board state.bag config
        match sp.1 with
        | some newPiece =>
          ⟨{ state with
             activePiece := some newPiece
             hold := ⟨some currentType, false⟩
             bag := sp.2 },
           [.pieceHold none currentType, .pieceSpawn newPiece.type]⟩
        | none => ⟨state, []⟩

/-- processRotation from Board.ts.  The source resets the lock delay with
the default config (it omits the config argument at this call site). -/
def processRotation (state : GameState) (direction : RotationDirection) :
    UpdateResult :=
  match state.activePiece with
  | none => ⟨state, []⟩
  | some piece =>
    match rotatePiece state.board piece direction with
    | some (rp, wasWallKick, kickIndex) =>
      let newPiece := updateGhostY state.board rp
      let finalPiece :=
        if isOnGround state.board newPiece then resetLockDelay newPiece DEFAULT_GAME_CONFIG
        else newPiece
      ⟨{ state with activePiece := some finalPiece },
       [.pieceRotate finalPiece.rotation wasWallKick kickIndex]⟩
    | none => ⟨state, []⟩

/-- processMove from Board.ts. -/
def processMove (state : GameState) (dx dy : ℤ) (config : GameConfig) :
    UpdateResult :=
  match state.activePiece with
  | none => ⟨state, []⟩
  | some piece =>
    match tryMove state.board piece dx dy with
    | some moved =>
      let newPiece0 := updateGhostY state.board moved
      let newPiece :=
        if isOnGround state.board newPiece0 then resetLockDelay newPiece0 config
        else newPiece0
      let direction : MoveDirection :=
        if dx < 0 then .left else if 0 < dx then .right else .down
      ⟨{ state with activePiece := some newPiece },
       [.pieceMove direction newPiece.position]⟩
    | none => ⟨state, []⟩

/-- gravityLoop: the accumulator-draining while-loop of processGravity in
Board.ts; stepping down one cell per accumulated unit, zeroing the
accumulator on the first blocked step.  Returns (piece, accumulator,
cellsDropped). -/
def gravityLoop (board : BoardState) (softDrop : Bool) :
    ℕ → ActivePiece → ℚ → ℕ → ActivePiece × ℚ × ℕ
| 0, piece, acc, dropped => (piece, acc, dropped)
| fuel + 1, piece, acc, dropped =>
  if 1 ≤ acc then
    match tryMove board piece 0 (-1) with
    | some moved =>
      let moved :=
        if softDrop then { moved with softDropCells := moved.softDropCells + 1 }
        else moved
      gravityLoop board softDrop fuel moved (acc - 1) (dropped + 1)
    | none => (piece, 0, dropped)
  else (piece, acc, dropped)

/-- processGravity from Board.ts: accumulate fractional cells at the
current gravity speed (times the soft-drop multiplier when held) and step
the piece down.  The fuel `acc.floor.toNat` dominates the loop's iteration
count, so the fueled loop coincides with the source's while-loop. -/
def processGravity (state : GameState) (deltaMs : ℚ) (softDrop : Bool)
    (config : GameConfig) : UpdateResult :=
  match state.activePiece with
  | none => ⟨state, []⟩
  | some piece =>
    let baseSpeed := state.timing.gravitySpeed
    let speed := if softDrop then baseSpeed * config.softDropMultiplier else baseSpeed
    let cellsPerMs := speed / 1000
    let acc0 := state.timing.gravityAccumulator + deltaMs * cellsPerMs
    let r := gravityLoop state.board softDrop acc0.floor.toNat piece acc0 0
    let newPiece := updateGhostY state.board r.1
    let events : List GameEvent :=
      if softDrop ∧ 0 < r.2.2 then [.softDrop r.2.2] else []
    ⟨{ state with
       activePiece := some newPiece
       timing := { state.timing with gravityAccumulator := r.2.1 } }, events⟩

/-- levelUpLoop: the level-up while-loop of processLock in Board.ts,
returning (newLevel, remainingLines, level-up events in ascending order).
The fuel `maxLevel` dominates the iteration count since every iteration
requires `level < maxLevel` and increments the level. -/
def levelUpLoop (linesPerLevel maxLevel : ℕ) :
    ℕ → ℕ → ℕ → ℕ × ℕ × List GameEvent
| 0, level, remaining => (level, remaining, [])
| fuel + 1, level, remaining =>
  if linesPerLevel ≤ remaining ∧ level < maxLevel then
    let r := levelUpLoop linesPerLevel maxLevel fuel (level + 1) (remaining - linesPerLevel)
    (r.1, r.2.1, .levelUp (level + 1) level :: r.2.2)
  else (level, remaining, [])

/-- processLock from Board.ts: one atomic lock step - lock the piece,
clear filled rows, classify the clear (note the source hard-codes kick
index 0 into detectTSpin), score it, update combo / back-to-back / heat /
level, and emit the events in source order.  A non-clearing lock only
resets the combo count. -/
def processLock (state : GameState) (config : GameConfig) : UpdateResult :=
  match state.activePiece with
  | none => ⟨state, []⟩
  | some piece =>
    let lockRes := lockActivePiece state.board piece
    let ev0 : List GameEvent := [.pieceLock lockRes.2 piece.type]
    let clearRes := processLineClears lockRes.1
    let clearedBoard := clearRes.1
    let clearedRows := clearRes.2
    let baseState :=
      { state with
        board := clearedBoard
        activePiece := none
        hold := { state.hold with available := true } }
    if 0 < clearedRows.length then
      let tSpinResult :=
        detectTSpin state.board piece (decide (0 < piece.lockDelay.moveResets)) 0
      let clearType := getClearType clearedRows.length tSpinResult.isTSpin tSpinResult.isMini
      let isDifficult := isDifficultClear clearType
      let newComboCount := state.combo.comboCount + 1
      let isBackToBack := isDifficult && state.combo.backToBackActive
      let newBackToBack :=
        if isDifficult then (if isBackToBack then state.combo.backToBack + 1 else 1) else 0
      let points :=
        calculateClearPoints clearType state.score.level newComboCount isBackToBack
          DEFAULT_SCORING_CONFIG
      let perfectClear := isPerfectClear clearedBoard
      let totalPoints :=
        if perfectClear then points + 3000 * (state.score.level : ℚ) else points
      let heatContribution :=
        calculateHeatContribution clearType newComboCount isBackToBack DEFAULT_HEAT_CONFIG
      let newHeat := min 1 (state.streak.heatLevel + heatContribution)
      let clearEvent : ClearEvent :=
        ⟨clearType, clearedRows, state.timing.gameTime, isBackToBack, newComboCount,
         totalPoints, heatContribution⟩
      let ev1 : List GameEvent := [.linesClear clearEvent]
      let ev2 : List GameEvent := if 1 < newComboCount then [.combo newComboCount] else []
      let ev3 : List GameEvent :=
        if isBackToBack ∧ 1 < newBackToBack then [.backToBack newBackToBack] else []
      let ev4 : List GameEvent :=
        if perfectClear then [.perfectClear (3000 * (state.score.level : ℚ))] else []
      let newLinesCleared := state.score.linesCleared + clearedRows.length
      let newLinesAtLevel := state.score.linesAtLevel + clearedRows.length
      let lvl := levelUpLoop config.linesPerLevel config.maxLevel config.maxLevel
        state.score.level newLinesAtLevel
      let ev6 : List GameEvent :=
        if newHeat ≠ state.streak.heatLevel
        then [.heatChange newHeat heatContribution state.streak.heatLevel] else []
      let recent := state.streak.recentClears ++ [clearEvent]
      ⟨{ baseState with
         score := ⟨state.score.score + totalPoints, lvl.1, newLinesCleared, lvl.2.1,
                   (config.linesPerLevel : ℤ) - (lvl.2.1 : ℤ)⟩,
         combo := ⟨newComboCount, newBackToBack, isDifficult,
                   if perfectClear then state.combo.perfectClears + 1
                   else state.combo.perfectClears⟩,
         streak := ⟨newHeat, max state.streak.peakHeat newHeat, 0,
                    recent.drop (recent.length - 10)⟩,
         timing := { state.timing with
                     gravitySpeed := calculateGravity lvl.1
                     baseGravity := calculateGravity lvl.1 } },
       ev0 ++ ev1 ++ ev2 ++ ev3 ++ ev4 ++ lvl.2.2 ++ ev6⟩
    else
      ⟨{ baseState with combo := { state.combo with comboCount := 0 } }, ev0⟩

/-- processHardDrop from Board.ts: teleport to the cached ghost position,
lock immediately, then add 2 x softDropMultiplier points per dropped cell. -/
def processHardDrop (state : GameState) (config : GameConfig) : UpdateResult :=
  match state.activePiece with
  | none => ⟨state, []⟩
  | some piece =>
    let dropDistance := getDropDistance state.board piece
    let startY := piece.position.y
    let droppedPiece : ActivePiece :=
      { piece with
        position := ⟨piece.position.x, piece.ghostY⟩
        lockDelay := { piece.lockDelay with active := true, remaining := 0 } }
    let ev0 : List GameEvent := [.hardDrop startY droppedPiece.position.y dropDistance]
    let lockResult := processLock { state with activePiece := some droppedPiece } config
    let hardDropPoints := (dropDistance : ℚ) * config.softDropMultiplier * 2
    ⟨{ lockResult.state with
       score := { lockResult.state.score with
                  score := lockResult.state.score.score + hardDropPoints } },
     ev0 ++ lockResult.events⟩

/-- processSpawn from Board.ts: draw and spawn a replacement piece; a
block-out flips the phase to gameOver and emits the game-over event. -/
def processSpawn (refill : List TetrominoType) (state : GameState)
    (config : GameConfig) : UpdateResult :=
  let sp := spawnNextPiece refill state.board state.bag config
  match sp.1 with
  | none =>
    ⟨{ state with phase := .gameOver },
     [.gameOver state.score.score state.score.level state.score.linesCleared]⟩
  | some piece =>
    ⟨{ state with activePiece := some piece, bag := sp.2 },
     [.pieceSpawn piece.type]⟩

/-- stageClock: the clock advance at the top of updateGame (Board.ts). -/
def stageClock (deltaMs : ℚ) (state : GameState) : GameState :=
  { state with timing := { state.timing with gameTime := state.timing.gameTime + deltaMs } }

/-- stageHeatDecay: the heat-decay block of updateGame (Board.ts); the
streak record is only touched when the decayed heat differs. -/
def stageHeatDecay (deltaMs : ℚ) (state : GameState) : GameState :=
  let newHeat := decayHeat state.streak.heatLevel deltaMs DEFAULT_HEAT_CONFIG
  if newHeat ≠ state.streak.heatLevel then
    { state with streak := { state.streak with
        heatLevel := newHeat
        timeSinceLastClear := state.streak.timeSinceLastClear + deltaMs } }
  else state

/-- stageHold: the hold block of updateGame (Board.ts). -/
def stageHold (refill : List TetrominoType) (actions : InputActions)
    (config : GameConfig) (state : GameState) : UpdateResult :=
  if actions.hold ∧ state.hold.available ∧ state.activePiece.isSome
  then processHold refill state config else ⟨state, []⟩

/-- stageRotation: the rotation block of updateGame (Board.ts): CW
checked before CCW before 180. -/
def stageRotation (actions : InputActions) (state : GameState) : UpdateResult :=
  if state.activePiece.isSome then
    if actions.rotateCW then processRotation state .cw
    else if actions.rotateCCW then processRotation state .ccw
    else if actions.rotate180 then processRotation state .half
    else ⟨state, []⟩
  else ⟨state, []⟩

/-- stageMove: the horizontal-movement block of updateGame (Board.ts). -/
def stageMove (actions : InputActions) (config : GameConfig)
    (state : GameState) : UpdateResult :=
  if state.activePiece.isSome then
    if actions.moveLeft then processMove state (-1) 0 config
    else if actions.moveRight then processMove state 1 0 config
    else ⟨state, []⟩
  else ⟨state, []⟩

/-- stageDrop: the hard-drop-or-gravity block of updateGame (Board.ts). -/
def stageDrop (actions : InputActions) (deltaMs : ℚ) (config : GameConfig)
    (state : GameState) : UpdateResult :=
  if actions.hardDrop ∧ state.activePiece.isSome then processHardDrop state config
  else if state.activePiece.isSome then
    processGravity state deltaMs actions.softDrop config
  else ⟨state, []⟩

/-- stageLockDelay: the lock-delay block of updateGame (Board.ts):
activate when grounded, tick the timer, lock on expiry, deactivate when
airborne. -/
def stageLockDelay (deltaMs : ℚ) (config : GameConfig)
    (state : GameState) : UpdateResult :=
  match state.activePiece with
  | some p =>
    if isOnGround state.board p then
      let p2 := updateLockDelay (activateLockDelay p) deltaMs
      let s' := { state with activePiece := some p2 }
      if isLockDelayExpired p2 then processLock s' config else ⟨s', []⟩
    else ⟨{ state with activePiece := some (deactivateLockDelay p) }, []⟩
  | none => ⟨state, []⟩

/-- updateCore: the body of updateGame from Board.ts up to (and including)
the lock-delay block - advance the clock, decay heat, hold, rotation,
horizontal move, hard drop or gravity, lock-delay handling and locking.
`supply k` stands in for the k-th `Math.random` bag refill of the tick. -/
def updateCore (supply : ℕ → List TetrominoType) (state : GameState)
    (deltaMs : ℚ) (actions : InputActions) (config : GameConfig) : UpdateResult :=
  let s2 := stageHeatDecay deltaMs (stageClock deltaMs state)
  let hr := stageHold (supply 0) actions config s2
  let rr := stageRotation actions hr.state
  let mr := stageMove actions config rr.state
  let dr := stageDrop actions deltaMs config mr.state
  let lr := stageLockDelay deltaMs config dr.state
  ⟨lr.state, hr.events ++ rr.events ++ mr.events ++ dr.events ++ lr.events⟩

/-- updateGame from Board.ts: the single fixed-timestep update.  Outside
the playing phase the state is returned unchanged with no events;
otherwise run updateCore, spawn a replacement piece when none is active
(the sole game-over trigger), and append the danger-zone event. -/
def updateGame (supply : ℕ → List TetrominoType) (state : GameState)
    (deltaMs : ℚ) (actions : InputActions) (config : GameConfig) : UpdateResult :=
  if state.phase ≠ .playing then ⟨state, []⟩
  else
    let core := updateCore supply state deltaMs actions config
    let afterSpawn :=
      if core.state.activePiece = none ∧ core.state.phase = .playing then
        let r := processSpawn (supply 1) core.state config
        ⟨r.state, core.events ++ r.events⟩
      else core
    let dangerLevel := getDangerLevel afterSpawn.state.board
    ⟨afterSpawn.state,
     afterSpawn.events ++ (if 0 < dangerLevel then [.dangerZone true dangerLevel] else [])⟩

/-! Concrete fixtures used by counterexamples and witnesses. -/

/-- emptyBoard: a default-config board with no cells. -/
def emptyBoard : BoardState := ⟨DEFAULT_BOARD_CONFIG, ∅⟩

/-- freshLockDelay: the lock-delay sub-state of a freshly spawned piece
under the default config. -/
def freshLockDelay : LockDelayState := ⟨false, 500, 0, 15⟩

/-- exampleBag: a bag whose current queue is the canonical 7-type order. -/
def exampleBag : PieceBag := ⟨PIECE_TYPES, PIECE_TYPES, [.I, .O, .T]⟩

/-- baseGameState: a playing-phase state on a given board with a given
active piece, zeroed counters and level 1. -/
def baseGameState (board : BoardState) (piece : Option ActivePiece) : GameState where
  phase := .playing
  board := board
  activePiece := piece
  hold := ⟨none, true⟩
  bag := exampleBag
  score := ⟨0, 1, 0, 0, 10⟩
  combo := ⟨0, 0, false, 0⟩
  streak := ⟨0, 0, 0, []⟩
  timing := ⟨0, 0, 0, 1, 1⟩

/-- tetrisBoard: rows 0-3 filled in columns 1-9, plus a stray cell at
(5, 10) so the tetris is not a perfect clear; column 0 of rows 0-3 is the
notch an upright I piece fills. -/
def tetrisBoard : BoardState :=
  ⟨DEFAULT_BOARD_CONFIG,
   ((Finset.Ico (1 : ℤ) 10) ×ˢ (Finset.Ico (0 : ℤ) 4)) ∪ {((5 : ℤ), (10 : ℤ))}⟩

/-- tetrisPiece: an upright I piece whose blocks are column 0, rows 0-3. -/
def tetrisPiece : ActivePiece :=
  ⟨.I, ⟨-1, 1⟩, 1, 1, ⟨true, 0, 0, 15⟩, 0⟩

/-- tetrisState: about to lock `tetrisPiece` on `tetrisBoard` with combo 0
and back-to-back inactive at level 1. -/
def tetrisState : GameState := baseGameState tetrisBoard (some tetrisPiece)

/-- singleBoard: row 0 filled in columns 1-9; an upright I piece in column
0 completes only row 0 (rows 1-3 keep the I's leftover cells). -/
def singleBoard : BoardState :=
  ⟨DEFAULT_BOARD_CONFIG, (Finset.Ico (1 : ℤ) 10) ×ˢ (Finset.Ico (0 : ℤ) 1)⟩

/-- singleState: about to lock `tetrisPiece` on `singleBoard`: an easy
single clear from combo 0. -/
def singleState : GameState := baseGameState singleBoard (some tetrisPiece)

/-- kickBoard: a board on which a T at (5,1) rotation 0 can rotate CW only
through the last-resort kick slot (index 4, offset (-1,2)), landing at
(4,3) rotation 1; locking there completes row 2, with three filled
diagonal corners but only one filled front corner. -/
def kickBoard : BoardState :=
  ⟨DEFAULT_BOARD_CONFIG,
   {((4 : ℤ), (0 : ℤ)), ((3 : ℤ), (4 : ℤ)),
    ((0 : ℤ), (2 : ℤ)), ((1 : ℤ), (2 : ℤ)), ((2 : ℤ), (2 : ℤ)), ((3 : ℤ), (2 : ℤ)),
    ((5 : ℤ), (2 : ℤ)), ((6 : ℤ), (2 : ℤ)), ((7 : ℤ), (2 : ℤ)), ((8 : ℤ), (2 : ℤ)),
    ((9 : ℤ), (2 : ℤ))}⟩

/-- preT: the T piece before the kick-index-4 CW rotation on `kickBoard`. -/
def preT : ActivePiece := ⟨.T, ⟨5, 1⟩, 0, 1, ⟨false, 500, 0, 15⟩, 0⟩

/-- postT: the T piece produced by that rotation (position (4,3),
rotation 1), with its lock delay run out and one move reset recorded. -/
def postT : ActivePiece := ⟨.T, ⟨4, 3⟩, 1, 3, ⟨true, 0, 1, 15⟩, 0⟩

/-- kickState: about to lock `postT` on `kickBoard`. -/
def kickState : GameState := baseGameState kickBoard (some postT)

/-- noClearPiece: an O piece sitting on the floor of an empty board. -/
def noClearPiece : ActivePiece := ⟨.O, ⟨4, 0⟩, 0, 0, ⟨true, 0, 0, 15⟩, 0⟩

/-- noClearState: about to lock `noClearPiece` on the empty board (no row
can clear). -/
def noClearState : GameState := baseGameState emptyBoard (some noClearPiece)

/-- clearTypes: the clear types carried by the lines-clear events of a
tick's event list. -/
def clearTypes (events : List GameEvent) : List ClearType :=
  events.filterMap (fun e => match e with | .linesClear ce => some ce.type | _ => none)

/-- clearPointsOf: the points carried by the lines-clear events of a
tick's event list. -/
def clearPointsOf (events : List GameEvent) : List ℚ :=
  events.filterMap (fun e => match e with | .linesClear ce => some ce.points | _ => none)

/-- lockClearType: the clear type processLock derives for a clearing lock
(note the hard-coded kick index 0 of the source). -/
def lockClearType (state : GameState) (piece : ActivePiece) : ClearType :=
  getClearType (getFilledRows (lockActivePiece state.board piece).1).length
    (detectTSpin state.board piece (decide (0 < piece.lockDelay.moveResets)) 0).isTSpin
    (detectTSpin state.board piece (decide (0 < piece.lockDelay.moveResets)) 0).isMini

/-- lockClearPoints: the points processLock computes for a clearing lock,
before the perfect-clear bonus. -/
def lockClearPoints (state : GameState) (piece : ActivePiece) : ℚ :=
  calculateClearPoints (lockClearType state piece) state.score.level
    (state.combo.comboCount + 1)
    (isDifficultClear (lockClearType state piece) && state.combo.backToBackActive)
    DEFAULT_SCORING_CONFIG

/-- lockTotalPoints: the points processLock awards for a clearing lock,
including the flat perfect-clear bonus. -/
def lockTotalPoints (state : GameState) (piece : ActivePiece) : ℚ :=
  if isPerfectClear (clearRows (lockActivePiece state.board piece).1
      (getFilledRows (lockActivePiece state.board piece).1))
  then lockClearPoints state piece + 3000 * (state.score.level : ℚ)
  else lockClearPoints state piece

/-- noActions: all per-tick action flags off. -/
def noActions : InputActions := ⟨false, false, false, false, false, false, false, false⟩

/-- drawMany: n consecutive draws via getNextPiece; `supply k` is the bag
refill that the k-th draw would obtain from createBag() on exhaustion. -/
def drawMany (supply : ℕ → List TetrominoType) :
    ℕ → ℕ → PieceBag → List TetrominoType × PieceBag
| _, 0, bag => ([], bag)
| k, n + 1, bag =>
  let r := getNextPiece (supply k) bag
  let rest := drawMany supply (k + 1) n r.2
  (r.1 :: rest.1, rest.2)

/-- hasGameOver: whether any event in the list is a game-over event. -/
def hasGameOver (events : List GameEvent) : Bool :=
  events.any GameEvent.isGameOverEvent

/-- menuState: a state sitting in the main menu. -/
def menuState : GameState := { baseGameState emptyBoard none with phase := .menu }

/-- rotatePieceT: a T piece resting mid-air on the empty board, used to
witness the rotate-and-rotate-back round trip. -/
def rotatePieceT : ActivePiece := ⟨.T, ⟨4, 10⟩, 0, 0, freshLockDelay, 0⟩

/-- rotatePieceT1: the same piece after a zero-offset CW rotation. -/
def rotatePieceT1 : ActivePiece := ⟨.T, ⟨4, 10⟩, 1, 0, freshLockDelay, 0⟩

/-! Helper lemmas on the row scan and row clear of board.ts. -/

theorem mem_intRange {n : ℕ} {y : ℤ} :
    y ∈ intRange n ↔ 0 ≤ y ∧ y < (n : ℤ) := by
  constructor
  · intro h
    obtain ⟨k, hk, rfl⟩ := List.mem_map.mp h
    have := List.mem_range.mp hk
    omega
  · rintro ⟨h0, hn⟩
    exact List.mem_map.mpr ⟨y.toNat, List.mem_range.mpr (by omega), by omega⟩

theorem nodup_intRange {n : ℕ} : (intRange n).Nodup :=
  List.Nodup.map Nat.cast_injective (List.nodup_range n)

theorem rowFilled_iff {b : BoardState} {y : ℤ} :
    rowFilled b y = true ↔
      ∀ x ∈ Finset.Ico (0 : ℤ) (b.config.width : ℤ), (x, y) ∈ b.cells := by
  simp [rowFilled]

theorem mem_getFilledRows {b : BoardState} {y : ℤ} :
    y ∈ getFilledRows b ↔
      (0 ≤ y ∧ y < (totalHeight b.config : ℤ)) ∧ rowFilled b y = true := by
  simp only [getFilledRows, List.mem_filter, mem_intRange]

theorem mem_keptRows {b : BoardState} {rows : List ℤ} {y : ℤ} :
    y ∈ keptRows b rows ↔
      (0 ≤ y ∧ y < (totalHeight b.config : ℤ)) ∧ y ∉ rows := by
  simp only [keptRows, List.mem_filter, mem_intRange, decide_eq_true_eq]

theorem nodup_getFilledRows {b : BoardState} : (getFilledRows b).Nodup :=
  nodup_intRange.filter _

theorem nodup_keptRows {b : BoardState} {rows : List ℤ} : (keptRows b rows).Nodup :=
  nodup_intRange.filter _

theorem clearRows_config (b : BoardState) (rows : List ℤ) :
    (clearRows b rows).config = b.config := by
  unfold clearRows; split <;> rfl

theorem clearRows_cells (b : BoardState) (rows : List ℤ) (h : rows ≠ []) :
    (clearRows b rows).cells =
      ((Finset.Ico (0 : ℤ) (b.config.width : ℤ)) ×ˢ
        (Finset.Ico (0 : ℤ) ((keptRows b rows).length : ℤ))).filter
        (fun p => (p.1, (keptRows b rows).getD p.2.toNat 0) ∈ b.cells) := by
  rw [clearRows, if_neg h]

theorem getFilledRows_clearRows (b : BoardState) (hw : 0 < b.config.width) :
    getFilledRows (clearRows b (getFilledRows b)) = [] := by
  by_cases hF : getFilledRows b = []
  · rw [hF]
    simpa [clearRows] using hF
  · have hcfg : (clearRows b (getFilledRows b)).config = b.config := clearRows_config ..
    have hcells := clearRows_cells b (getFilledRows b) hF
    rw [getFilledRows, List.filter_eq_nil_iff]
    intro y hy
    rw [hcfg, mem_intRange] at hy
    intro hfill
    have hrow : ∀ x ∈ Finset.Ico (0 : ℤ) (b.config.width : ℤ),
        (x, y) ∈ (clearRows b (getFilledRows b)).cells := by
      have := rowFilled_iff.mp hfill
      rwa [hcfg] at this
    by_cases hyK : y < ((keptRows b (getFilledRows b)).length : ℤ)
    · have hyt : y.toNat < (keptRows b (getFilledRows b)).length := by omega
      have hKy : (keptRows b (getFilledRows b)).getD y.toNat 0 ∈
          keptRows b (getFilledRows b) := by
        rw [List.getD_eq_getElem _ _ hyt]
        exact List.getElem_mem hyt
      have hK := mem_keptRows.mp hKy
      have hr : ¬ rowFilled b ((keptRows b (getFilledRows b)).getD y.toNat 0) = true := by
        intro h'
        exact hK.2 (mem_getFilledRows.mpr ⟨hK.1, h'⟩)
      rw [rowFilled_iff] at hr
      push_neg at hr
      obtain ⟨x, hx, hnot⟩ := hr
      have hmem := hrow x hx
      rw [hcells] at hmem
      exact hnot (Finset.mem_filter.mp hmem).2
    · have hmem := hrow 0 (Finset.mem_Ico.mpr ⟨le_refl 0, by exact_mod_cast hw⟩)
      rw [hcells] at hmem
      have hprod := (Finset.mem_filter.mp hmem).1
      have := (Finset.mem_product.mp hprod).2
      rw [Finset.mem_Ico] at this
      omega

theorem clearRows_cells_card (b : BoardState) (hwf : WellFormed b) :
    b.cells.card =
      (clearRows b (getFilledRows b)).cells.card +
        (getFilledRows b).length * b.config.width := by
  by_cases hF : getFilledRows b = []
  · rw [hF]
    simp [clearRows]
  · have hcells := clearRows_cells b (getFilledRows b) hF
    have hnew : (clearRows b (getFilledRows b)).cells.card =
        (b.cells.filter (fun c => ¬ c.2 ∈ getFilledRows b)).card := by
      rw [hcells]
      apply Finset.card_nbij
        (fun p => (p.1, (keptRows b (getFilledRows b)).getD p.2.toNat 0))
      · intro p hp
        rw [Finset.mem_filter] at hp
        obtain ⟨hbox, hcell⟩ := hp
        have hb := Finset.mem_product.mp hbox
        have h2 := Finset.mem_Ico.mp hb.2
        have hyt : p.2.toNat < (keptRows b (getFilledRows b)).length := by omega
        have hKy : (keptRows b (getFilledRows b)).getD p.2.toNat 0 ∈
            keptRows b (getFilledRows b) := by
          rw [List.getD_eq_getElem _ _ hyt]
          exact List.getElem_mem hyt
        exact Finset.mem_filter.mpr ⟨hcell, (mem_keptRows.mp hKy).2⟩
      · intro p hp q hq hpq
        rw [Finset.mem_coe, Finset.mem_filter] at hp hq
        have hbp := Finset.mem_product.mp hp.1
        have hbq := Finset.mem_product.mp hq.1
        have h2p := Finset.mem_Ico.mp hbp.2
        have h2q := Finset.mem_Ico.mp hbq.2
        have hytp : p.2.toNat < (keptRows b (getFilledRows b)).length := by omega
        have hytq : q.2.toNat < (keptRows b (getFilledRows b)).length := by omega
        have hpq' : (p.1, (keptRows b (getFilledRows b)).getD p.2.toNat 0) =
            (q.1, (keptRows b (getFilledRows b)).getD q.2.toNat 0) := hpq
        rw [Prod.mk.injEq] at hpq'
        obtain ⟨h1, h2⟩ := hpq'
        rw [List.getD_eq_getElem _ _ hytp, List.getD_eq_getElem _ _ hytq] at h2
        have hidx := (List.Nodup.getElem_inj_iff nodup_keptRows).mp h2
        have h2' : p.2 = q.2 := by omega
        exact Prod.ext h1 h2'
      · intro c hc
        rw [Finset.mem_coe, Finset.mem_filter] at hc
        obtain ⟨hcell, hnF⟩ := hc
        have hbounds := hwf c hcell
        have hcK : c.2 ∈ keptRows b (getFilledRows b) :=
          mem_keptRows.mpr ⟨⟨hbounds.2.2.1, hbounds.2.2.2⟩, hnF⟩
        have hidx : (keptRows b (getFilledRows b)).indexOf c.2 <
            (keptRows b (getFilledRows b)).length := List.indexOf_lt_length.mpr hcK
        have htn : (((keptRows b (getFilledRows b)).indexOf c.2 : ℤ)).toNat =
            (keptRows b (getFilledRows b)).indexOf c.2 := Int.toNat_natCast _
        have hget : (keptRows b (getFilledRows b)).getD
            ((((keptRows b (getFilledRows b)).indexOf c.2 : ℤ)).toNat) 0 = c.2 := by
          rw [htn, List.getD_eq_getElem _ _ hidx]
          have hg := List.indexOf_get (a := c.2) hidx
          rw [List.get_eq_getElem] at hg
          exact hg
        have hmemx : c.1 ∈ Finset.Ico (0 : ℤ) (b.config.width : ℤ) :=
          Finset.mem_Ico.mpr ⟨hbounds.1, hbounds.2.1⟩
        have hmemy : (((keptRows b (getFilledRows b)).indexOf c.2 : ℤ)) ∈
            Finset.Ico (0 : ℤ) ((keptRows b (getFilledRows b)).length : ℤ) :=
          Finset.mem_Ico.mpr ⟨by omega, by exact_mod_cast hidx⟩
        refine ⟨(c.1, ((keptRows b (getFilledRows b)).indexOf c.2 : ℤ)), ?_, ?_⟩
        · rw [Finset.mem_coe, Finset.mem_filter]
          refine ⟨Finset.mem_product.mpr ⟨hmemx, hmemy⟩, ?_⟩
          show (c.1, (keptRows b (getFilledRows b)).getD
            ((((keptRows b (getFilledRows b)).indexOf c.2 : ℤ)).toNat) 0) ∈ b.cells
          rw [hget]
          exact hcell
        · show (c.1, (keptRows b (getFilledRows b)).getD
            ((((keptRows b (getFilledRows b)).indexOf c.2 : ℤ)).toNat) 0) = c
          rw [hget]
    have hT : (b.cells.filter (fun c => c.2 ∈ getFilledRows b)).card =
        (getFilledRows b).length * b.config.width := by
      have hfib := Finset.card_eq_sum_card_fiberwise
        (f := Prod.snd) (s := b.cells.filter (fun c => c.2 ∈ getFilledRows b))
        (t := (getFilledRows b).toFinset)
        (fun c hc => List.mem_toFinset.mpr (Finset.mem_filter.mp hc).2)
      rw [hfib]
      have hrowcard : ∀ y ∈ (getFilledRows b).toFinset,
          ((b.cells.filter (fun c => c.2 ∈ getFilledRows b)).filter
            (fun c => c.2 = y)).card = b.config.width := by
        intro y hyF
        rw [List.mem_toFinset] at hyF
        have hfilled := (mem_getFilledRows.mp hyF).2
        rw [rowFilled_iff] at hfilled
        have hcard := Finset.card_nbij' (fun x => (x, y)) Prod.fst
          (s := Finset.Ico (0 : ℤ) (b.config.width : ℤ))
          (t := (b.cells.filter (fun c => c.2 ∈ getFilledRows b)).filter
            (fun c => c.2 = y))
          (fun x hx => Finset.mem_filter.mpr
            ⟨Finset.mem_filter.mpr ⟨hfilled x hx, hyF⟩, rfl⟩)
          (fun c hc => by
            have hcell := (Finset.mem_filter.mp ((Finset.mem_filter.mp hc).1)).1
            have hbounds := hwf c hcell
            exact Finset.mem_Ico.mpr ⟨hbounds.1, hbounds.2.1⟩)
          (fun x _ => rfl)
          (fun c hc => by
            have hcy := (Finset.mem_filter.mp hc).2
            show (c.1, y) = c
            rw [← hcy])
        rw [← hcard, Int.card_Ico]
        omega
      rw [Finset.sum_congr rfl hrowcard, Finset.sum_const, smul_eq_mul,
        List.toFinset_card_of_nodup nodup_getFilledRows]
    have hsplit := Finset.filter_card_add_filter_neg_card_eq_card
      (s := b.cells) (p := fun c => c.2 ∈ getFilledRows b)
    omega

/-- Claim C5: for every (well-formed, positive-width) board, clearing the
rows returned by the filled-row scan yields a board whose filled-row scan
is empty and whose cell count is the original count minus
(cleared rows x width). -/
theorem clear_scan_rows_spec (b : BoardState) (hwf : WellFormed b)
    (hw : 0 < b.config.width) :
    getFilledRows (clearRows b (getFilledRows b)) = [] ∧
    b.cells.card =
      (clearRows b (getFilledRows b)).cells.card +
        (getFilledRows b).length * b.config.width :=
  ⟨getFilledRows_clearRows b hw, clearRows_cells_card b hwf⟩

/-- Witness for clear_scan_rows_spec: the concrete `tetrisBoard`. -/
theorem clear_scan_rows_spec_witness :
    (WellFormed tetrisBoard ∧ 0 < tetrisBoard.config.width) ∧
    (getFilledRows (clearRows tetrisBoard (getFilledRows tetrisBoard)) = [] ∧
     tetrisBoard.cells.card =
       (clearRows tetrisBoard (getFilledRows tetrisBoard)).cells.card +
         (getFilledRows tetrisBoard).length * tetrisBoard.config.width) :=
  ⟨⟨by unfold WellFormed; decide, by decide⟩,
   clear_scan_rows_spec tetrisBoard (by unfold WellFormed; decide) (by decide)⟩

/-! Bag randomizer lemmas (tetromino.ts). -/

theorem drawMany_of_current (cur : List TetrominoType) :
    ∀ (supply : ℕ → List TetrominoType) (k : ℕ) (bag : PieceBag),
      bag.current = cur → (drawMany supply k cur.length bag).1 = cur := by
  induction cur with
  | nil => intro supply k bag _; rfl
  | cons p rest ih =>
    intro supply k bag hcur
    obtain ⟨cur', nxt, prev⟩ := bag
    simp only at hcur
    subst hcur
    rcases rest with _ | ⟨q, rest'⟩
    · rfl
    · have hcur2 : (getNextPiece (supply k) ⟨p :: q :: rest', nxt, prev⟩).2.current =
          q :: rest' := by
        simp [getNextPiece]
      have hp1 : (getNextPiece (supply k) ⟨p :: q :: rest', nxt, prev⟩).1 = p := by
        simp [getNextPiece]
      show ((getNextPiece (supply k) ⟨p :: q :: rest', nxt, prev⟩).1 ::
        (drawMany supply (k + 1) (q :: rest').length
          (getNextPiece (supply k) ⟨p :: q :: rest', nxt, prev⟩).2).1) = p :: q :: rest'
      rw [hp1, ih supply (k + 1) _ hcur2]

/-- Claim C6: from a bag whose current queue is a full 7-piece
permutation, 7 consecutive draws via getNextPiece return each of the 7
piece types exactly once. -/
theorem bag_seven_draws (bag : PieceBag) (supply : ℕ → List TetrominoType)
    (h : bag.current.Perm PIECE_TYPES) :
    ∀ t : TetrominoType, (drawMany supply 0 7 bag).1.count t = 1 := by
  intro t
  have hlen : bag.current.length = 7 := by
    rw [h.length_eq]; rfl
  have hdraw : (drawMany supply 0 7 bag).1 = bag.current := by
    conv_lhs => rw [← hlen]
    exact drawMany_of_current bag.current supply 0 bag rfl
  rw [hdraw, h.count_eq]
  cases t <;> rfl

/-- Witness for bag_seven_draws: the canonical-order bag. -/
theorem bag_seven_draws_witness :
    exampleBag.current.Perm PIECE_TYPES ∧
    ∀ t : TetrominoType,
      (drawMany (fun _ => PIECE_TYPES) 0 7 exampleBag).1.count t = 1 :=
  ⟨List.Perm.refl _, bag_seven_draws exampleBag (fun _ => PIECE_TYPES) (List.Perm.refl _)⟩

/-! Rotation lemmas (Rotation.ts). -/

theorem findKick_le {board : BoardState} {type : TetrominoType} {pos : Position}
    {rot : RotationState} :
    ∀ (ks : List Position) (i : ℤ) (q : Position) (j : ℤ),
      findKick board type pos rot ks i = some (q, j) → i ≤ j := by
  intro ks
  induction ks with
  | nil => intro i q j h; exact absurd h (by simp [findKick])
  | cons k rest ih =>
    intro i q j h
    rw [findKick] at h
    split at h
    · simp only [Option.some.injEq, Prod.mk.injEq] at h
      omega
    · have := ih (i + 1) q j h
      omega

theorem findKick_head {board : BoardState} {type : TetrominoType} {pos : Position}
    {rot : RotationState} {k : Position} {rest : List Position}
    {q : Position} {i : ℤ}
    (h : findKick board type pos rot (k :: rest) i = some (q, i)) :
    q = ⟨pos.x + k.x, pos.y + k.y⟩ := by
  rw [findKick] at h
  split at h
  · simp only [Option.some.injEq, Prod.mk.injEq] at h
    exact h.1.symm
  · have := findKick_le rest (i + 1) q i h
    omega

theorem wallKicks_head_zero :
    ∀ (t : TetrominoType) (r r' : RotationState),
      getWallKicks t r r' = [] ∨
        (getWallKicks t r r').headD ⟨1, 1⟩ = ⟨0, 0⟩ := by decide

theorem tryRotate90_zero_kick {board : BoardState} {piece p : ActivePiece}
    {d : RotationDirection} (hd : d ≠ .half)
    (h : (tryRotate board piece d).newPiece = some p)
    (hk : (tryRotate board piece d).kickIndex = 0) :
    p.position = piece.position ∧ p.rotation = getNewRotation piece.rotation d := by
  have he : tryRotate board piece d = tryRotate90 board piece d := by
    cases d
    · rfl
    · rfl
    · exact absurd rfl hd
  rw [he, tryRotate90] at h hk
  rcases hf : findKick board piece.type piece.position
      (getNewRotation piece.rotation d)
      (getWallKicks piece.type piece.rotation (getNewRotation piece.rotation d)) 0
    with _ | ⟨q, i⟩
  · rw [hf] at h
    simp at h
  · rw [hf] at h hk
    simp only [Option.some.injEq] at h hk
    rcases hks : getWallKicks piece.type piece.rotation (getNewRotation piece.rotation d)
      with _ | ⟨k0, rest⟩
    · rw [hks] at hf
      simp [findKick] at hf
    · rw [hks] at hf
      rw [hk] at hf
      have hq := findKick_head hf
      rcases wallKicks_head_zero piece.type piece.rotation (getNewRotation piece.rotation d)
        with hnil | hhead
      · rw [hks] at hnil
        cases hnil
      · rw [hks] at hhead
        simp only [List.headD_cons] at hhead
        rw [hhead] at hq
        have hqpos : q = piece.position := by
          rw [hq]
          show Position.mk (piece.position.x + 0) (piece.position.y + 0) = piece.position
          simp
        rw [← h]
        exact ⟨hqpos, rfl⟩

/-- Claim C9: rotating CW through the zero-offset kick and then CCW through
the zero-offset kick restores the original position and rotation, for a
piece at a legal placement. -/
theorem rotate_cw_ccw_roundtrip (board : BoardState) (piece p1 p2 : ActivePiece)
    (hvalid : isValidPiecePosition board piece = true)
    (h1 : (tryRotate board piece .cw).newPiece = some p1)
    (hk1 : (tryRotate board piece .cw).kickIndex = 0)
    (h2 : (tryRotate board p1 .ccw).newPiece = some p2)
    (hk2 : (tryRotate board p1 .ccw).kickIndex = 0) :
    p2.position = piece.position ∧ p2.rotation = piece.rotation := by
  obtain ⟨e1pos, e1rot⟩ := tryRotate90_zero_kick (by intro hc; cases hc) h1 hk1
  obtain ⟨e2pos, e2rot⟩ := tryRotate90_zero_kick (by intro hc; cases hc) h2 hk2
  refine ⟨by rw [e2pos, e1pos], ?_⟩
  rw [e2rot, e1rot]
  have hlt := piece.rotation.isLt
  apply Fin.ext
  show ((piece.rotation.val + 1) % 4 + 3) % 4 = piece.rotation.val
  omega

/-- Witness for rotate_cw_ccw_roundtrip: a T piece on the empty board. -/
theorem rotate_cw_ccw_roundtrip_witness :
    (isValidPiecePosition emptyBoard rotatePieceT = true ∧
     (tryRotate emptyBoard rotatePieceT .cw).newPiece = some rotatePieceT1 ∧
     (tryRotate emptyBoard rotatePieceT .cw).kickIndex = 0 ∧
     (tryRotate emptyBoard rotatePieceT1 .ccw).newPiece = some rotatePieceT ∧
     (tryRotate emptyBoard rotatePieceT1 .ccw).kickIndex = 0) ∧
    rotatePieceT.position = rotatePieceT.position ∧
    rotatePieceT.rotation = rotatePieceT.rotation :=
  ⟨⟨by decide, by decide, by decide, by decide, by decide⟩,
   rotate_cw_ccw_roundtrip emptyBoard rotatePieceT rotatePieceT1 rotatePieceT
     (by decide) (by decide) (by decide) (by decide) (by decide)⟩

/-! Lock-step lemmas (processLock in Board.ts). -/

/-- Claim C4: a lock that clears no rows resets the combo count to 0 and
leaves the back-to-back active flag exactly as it was. -/
theorem lock_no_clear_combo (state : GameState) (config : GameConfig)
    (piece : ActivePiece) (hap : state.activePiece = some piece)
    (hrows : getFilledRows (lockActivePiece state.board piece).1 = []) :
    (processLock state config).state.combo.comboCount = 0 ∧
    (processLock state config).state.combo.backToBackActive =
      state.combo.backToBackActive := by
  simp only [processLock, hap, processLineClears, hrows]
  simp

/-- Witness for lock_no_clear_combo: an O piece locked on the empty board. -/
theorem lock_no_clear_combo_witness :
    (noClearState.activePiece = some noClearPiece ∧
     getFilledRows (lockActivePiece noClearState.board noClearPiece).1 = []) ∧
    ((processLock noClearState DEFAULT_GAME_CONFIG).state.combo.comboCount = 0 ∧
     (processLock noClearState DEFAULT_GAME_CONFIG).state.combo.backToBackActive =
       noClearState.combo.backToBackActive) :=
  ⟨⟨rfl, by decide⟩,
   lock_no_clear_combo noClearState DEFAULT_GAME_CONFIG noClearPiece rfl (by decide)⟩

theorem clearTypes_levelUpLoop (a b : ℕ) :
    ∀ (fuel level remaining : ℕ), clearTypes (levelUpLoop a b fuel level remaining).2.2 = [] := by
  intro fuel
  induction fuel with
  | zero => intro level remaining; rfl
  | succ f ih =>
    intro level remaining
    rw [levelUpLoop]
    split
    · simp only [clearTypes, List.filterMap_cons]
      exact ih (level + 1) (remaining - a)
    · rfl

theorem clearPointsOf_levelUpLoop (a b : ℕ) :
    ∀ (fuel level remaining : ℕ), clearPointsOf (levelUpLoop a b fuel level remaining).2.2 = [] := by
  intro fuel
  induction fuel with
  | zero => intro level remaining; rfl
  | succ f ih =>
    intro level remaining
    rw [levelUpLoop]
    split
    · simp only [clearPointsOf, List.filterMap_cons]
      exact ih (level + 1) (remaining - a)
    · rfl

theorem clearTypes_nil : clearTypes [] = [] := rfl

theorem clearTypes_append (l1 l2 : List GameEvent) :
    clearTypes (l1 ++ l2) = clearTypes l1 ++ clearTypes l2 :=
  List.filterMap_append l1 l2 _

theorem clearTypes_ite (c : Prop) [Decidable c] (l1 l2 : List GameEvent) :
    clearTypes (if c then l1 else l2) = if c then clearTypes l1 else clearTypes l2 :=
  apply_ite clearTypes c l1 l2

theorem clearTypes_pieceLock (ps : List Position) (t : TetrominoType) (l : List GameEvent) :
    clearTypes (.pieceLock ps t :: l) = clearTypes l := rfl

theorem clearTypes_linesClear (ce : ClearEvent) (l : List GameEvent) :
    clearTypes (.linesClear ce :: l) = ce.type :: clearTypes l := rfl

theorem clearTypes_combo (n : ℕ) (l : List GameEvent) :
    clearTypes (.combo n :: l) = clearTypes l := rfl

theorem clearTypes_backToBack (n : ℕ) (l : List GameEvent) :
    clearTypes (.backToBack n :: l) = clearTypes l := rfl

theorem clearTypes_perfectClear (p : ℚ) (l : List GameEvent) :
    clearTypes (.perfectClear p :: l) = clearTypes l := rfl

theorem clearTypes_heatChange (h d ph : ℚ) (l : List GameEvent) :
    clearTypes (.heatChange h d ph :: l) = clearTypes l := rfl

theorem clearPointsOf_nil : clearPointsOf [] = [] := rfl

theorem clearPointsOf_append (l1 l2 : List GameEvent) :
    clearPointsOf (l1 ++ l2) = clearPointsOf l1 ++ clearPointsOf l2 :=
  List.filterMap_append l1 l2 _

theorem clearPointsOf_ite (c : Prop) [Decidable c] (l1 l2 : List GameEvent) :
    clearPointsOf (if c then l1 else l2) =
      if c then clearPointsOf l1 else clearPointsOf l2 :=
  apply_ite clearPointsOf c l1 l2

theorem clearPointsOf_pieceLock (ps : List Position) (t : TetrominoType)
    (l : List GameEvent) : clearPointsOf (.pieceLock ps t :: l) = clearPointsOf l := rfl

theorem clearPointsOf_linesClear (ce : ClearEvent) (l : List GameEvent) :
    clearPointsOf (.linesClear ce :: l) = ce.points :: clearPointsOf l := rfl

theorem clearPointsOf_combo (n : ℕ) (l : List GameEvent) :
    clearPointsOf (.combo n :: l) = clearPointsOf l := rfl

theorem clearPointsOf_backToBack (n : ℕ) (l : List GameEvent) :
    clearPointsOf (.backToBack n :: l) = clearPointsOf l := rfl

theorem clearPointsOf_perfectClear (p : ℚ) (l : List GameEvent) :
    clearPointsOf (.perfectClear p :: l) = clearPointsOf l := rfl

theorem clearPointsOf_heatChange (h d ph : ℚ) (l : List GameEvent) :
    clearPointsOf (.heatChange h d ph :: l) = clearPointsOf l := rfl

/-- processLock_clear_spec: symbolic characterization of the clearing
branch of processLock - the combo count is incremented, back-to-back
activity becomes the difficulty of the derived clear type, and the score
and lines-clear event carry lockTotalPoints. -/
theorem processLock_clear_spec (state : GameState) (config : GameConfig)
    (piece : ActivePiece) (hap : state.activePiece = some piece)
    (hne : getFilledRows (lockActivePiece state.board piece).1 ≠ []) :
    (processLock state config).state.combo.comboCount = state.combo.comboCount + 1 ∧
    (processLock state config).state.combo.backToBackActive =
      isDifficultClear (lockClearType state piece) ∧
    (processLock state config).state.score.score =
      state.score.score + lockTotalPoints state piece ∧
    clearTypes (processLock state config).events = [lockClearType state piece] ∧
    clearPointsOf (processLock state config).events = [lockTotalPoints state piece] := by
  have hlen : 0 < (getFilledRows (lockActivePiece state.board piece).1).length :=
    List.length_pos.mpr hne
  refine ⟨?_, ?_, ?_, ?_, ?_⟩ <;>
    simp only [processLock, hap, processLineClears, if_neg hne, if_pos hlen,
      lockClearType, lockClearPoints, lockTotalPoints]
  · simp only [clearTypes_append, clearTypes_ite, clearTypes_nil, clearTypes_pieceLock,
      clearTypes_linesClear, clearTypes_combo, clearTypes_backToBack,
      clearTypes_perfectClear, clearTypes_heatChange, clearTypes_levelUpLoop,
      ite_self, List.append_nil, List.nil_append]
  · simp only [clearPointsOf_append, clearPointsOf_ite, clearPointsOf_nil,
      clearPointsOf_pieceLock, clearPointsOf_linesClear, clearPointsOf_combo,
      clearPointsOf_backToBack, clearPointsOf_perfectClear, clearPointsOf_heatChange,
      clearPointsOf_levelUpLoop, ite_self, List.append_nil, List.nil_append]

/-- Counterexample for claim C3: locking `tetrisPiece` on `singleBoard`
clears one row as an easy single, yet the resulting combo count is 1, not
0 (the lock path increments the combo on every clear). -/
theorem lock_easy_clear_cex :
    lockClearType singleState tetrisPiece = .single ∧
    isDifficultClear .single = false ∧
    clearTypes (processLock singleState DEFAULT_GAME_CONFIG).events = [.single] ∧
    (processLock singleState DEFAULT_GAME_CONFIG).state.combo.comboCount = 1 ∧
    ¬ ((processLock singleState DEFAULT_GAME_CONFIG).state.combo.comboCount = 0 ∧
       (processLock singleState DEFAULT_GAME_CONFIG).state.combo.backToBackActive
         = false) := by
  have hct : lockClearType singleState tetrisPiece = .single := by decide
  have hspec := processLock_clear_spec singleState DEFAULT_GAME_CONFIG tetrisPiece
    rfl (by decide)
  refine ⟨hct, rfl, ?_, ?_, ?_⟩
  · rw [hspec.2.2.2.1, hct]
  · rw [hspec.1]
    decide
  · intro hcontra
    rw [hspec.1] at hcontra
    exact absurd hcontra.1 (by decide)

/-- Claim C3 (amended): a lock whose clear is not difficult increments the
combo count by one (it does not reset it to 0) and deactivates
back-to-back. -/
theorem lock_easy_clear_combo (state : GameState) (config : GameConfig)
    (piece : ActivePiece) (hap : state.activePiece = some piece)
    (hne : getFilledRows (lockActivePiece state.board piece).1 ≠ [])
    (heasy : isDifficultClear (lockClearType state piece) = false) :
    (processLock state config).state.combo.comboCount = state.combo.comboCount + 1 ∧
    (processLock state config).state.combo.backToBackActive = false := by
  have hspec := processLock_clear_spec state config piece hap hne
  exact ⟨hspec.1, by rw [hspec.2.1, heasy]⟩

/-- Witness for lock_easy_clear_combo: the single clear on `singleBoard`. -/
theorem lock_easy_clear_combo_witness :
    (singleState.activePiece = some tetrisPiece ∧
     getFilledRows (lockActivePiece singleState.board tetrisPiece).1 ≠ [] ∧
     isDifficultClear (lockClearType singleState tetrisPiece) = false) ∧
    ((processLock singleState DEFAULT_GAME_CONFIG).state.combo.comboCount =
       singleState.combo.comboCount + 1 ∧
     (processLock singleState DEFAULT_GAME_CONFIG).state.combo.backToBackActive = false) :=
  ⟨⟨rfl, by decide, by decide⟩,
   lock_easy_clear_combo singleState DEFAULT_GAME_CONFIG tetrisPiece rfl
     (by decide) (by decide)⟩

/-- Counterexample for claim C1: locking an upright I piece completing
rows 0-3 on `tetrisBoard` at level 1, combo 0, back-to-back inactive
awards 850 points, not basePoints of tetris x 1 = 800: processLock
increments the combo count to 1 before scoring, adding comboBonus x 1 x 1. -/
theorem lock_first_tetris_cex :
    tetrisState.combo.comboCount = 0 ∧
    tetrisState.combo.backToBackActive = false ∧
    tetrisState.score.level = 1 ∧
    tetrisState.score.score = 0 ∧
    lockClearType tetrisState tetrisPiece = .tetris ∧
    clearPointsOf (processLock tetrisState DEFAULT_GAME_CONFIG).events = [850] ∧
    (processLock tetrisState DEFAULT_GAME_CONFIG).state.score.score = 850 ∧
    (850 : ℚ) ≠ 800 := by
  have hct : lockClearType tetrisState tetrisPiece = .tetris := by decide
  have hpc : isPerfectClear (clearRows (lockActivePiece tetrisState.board tetrisPiece).1
      (getFilledRows (lockActivePiece tetrisState.board tetrisPiece).1)) = false := by
    decide
  have hspec := processLock_clear_spec tetrisState DEFAULT_GAME_CONFIG tetrisPiece
    rfl (by decide)
  have htot : lockTotalPoints tetrisState tetrisPiece = 850 := by
    rw [lockTotalPoints, hpc]
    simp only [Bool.false_eq_true, if_false, lockClearPoints, hct]
    show calculateClearPoints .tetris 1 (0 + 1)
      (isDifficultClear .tetris && false) DEFAULT_SCORING_CONFIG = 850
    norm_num [calculateClearPoints, DEFAULT_SCORING_CONFIG, isDifficultClear]
  refine ⟨rfl, rfl, rfl, rfl, hct, ?_, ?_, by norm_num⟩
  · rw [hspec.2.2.2.2, htot]
  · rw [hspec.2.2.1, htot]
    show (0 : ℚ) + 850 = 850
    norm_num

/-- Claim C1 (amended): a lock clearing exactly 4 rows with a non-T piece
from combo 0, back-to-back inactive, level 1, and no perfect clear awards
exactly 850 points = basePoints of tetris x 1 + comboBonus x 1 x 1 (the
combo count is incremented to 1 before scoring). -/
theorem lock_first_tetris_points (state : GameState) (config : GameConfig)
    (piece : ActivePiece) (hap : state.activePiece = some piece)
    (hT : piece.type ≠ .T)
    (hcombo : state.combo.comboCount = 0)
    (hb2b : state.combo.backToBackActive = false)
    (hlevel : state.score.level = 1)
    (hlen : (getFilledRows (lockActivePiece state.board piece).1).length = 4)
    (hpc : isPerfectClear (clearRows (lockActivePiece state.board piece).1
      (getFilledRows (lockActivePiece state.board piece).1)) = false) :
    (processLock state config).state.score.score = state.score.score + 850 := by
  have hne : getFilledRows (lockActivePiece state.board piece).1 ≠ [] := by
    intro h
    rw [h] at hlen
    simp at hlen
  have hts : detectTSpin state.board piece
      (decide (0 < piece.lockDelay.moveResets)) 0 = ⟨false, false⟩ := by
    rw [detectTSpin, if_pos hT]
  have hct : lockClearType state piece = .tetris := by
    rw [lockClearType, hlen, hts]
    rfl
  have htot : lockTotalPoints state piece = 850 := by
    rw [lockTotalPoints, hpc]
    simp only [Bool.false_eq_true, if_false, lockClearPoints, hct, hcombo, hb2b, hlevel]
    norm_num [calculateClearPoints, DEFAULT_SCORING_CONFIG, isDifficultClear]
  have hspec := processLock_clear_spec state config piece hap hne
  rw [hspec.2.2.1, htot]

/-- Witness for lock_first_tetris_points: the concrete tetris lock. -/
theorem lock_first_tetris_points_witness :
    (tetrisState.activePiece = some tetrisPiece ∧
     tetrisPiece.type ≠ .T ∧
     tetrisState.combo.comboCount = 0 ∧
     tetrisState.combo.backToBackActive = false ∧
     tetrisState.score.level = 1 ∧
     (getFilledRows (lockActivePiece tetrisState.board tetrisPiece).1).length = 4 ∧
     isPerfectClear (clearRows (lockActivePiece tetrisState.board tetrisPiece).1
       (getFilledRows (lockActivePiece tetrisState.board tetrisPiece).1)) = false) ∧
    (processLock tetrisState DEFAULT_GAME_CONFIG).state.score.score =
      tetrisState.score.score + 850 :=
  ⟨⟨rfl, by decide, rfl, rfl, rfl, by decide, by decide⟩,
   lock_first_tetris_points tetrisState DEFAULT_GAME_CONFIG tetrisPiece rfl
     (by decide) rfl rfl rfl (by decide) (by decide)⟩

/-- Claim C2 (code evaluation): on `kickBoard`, the CW rotation of `preT`
succeeds only at the last-resort kick slot (index 4), producing the
placement `postT`; detectTSpin itself classifies that placement as a full
T-spin when given kick index 4, yet processLock - which hard-codes kick
index 0 - classifies the resulting single-line clear as t-spin-mini. -/
theorem tSpin_kick_slot_bug :
    (tryRotate kickBoard preT .cw).kickIndex = 4 ∧
    ((tryRotate kickBoard preT .cw).newPiece.map
      (fun p => (p.type, p.position, p.rotation))) = some (.T, ⟨4, 3⟩, 1) ∧
    (postT.type, postT.position, postT.rotation) = (.T, ⟨4, 3⟩, 1) ∧
    detectTSpin kickBoard postT true 4 = ⟨true, false⟩ ∧
    lockClearType kickState postT = .tSpinMini ∧
    clearTypes (processLock kickState DEFAULT_GAME_CONFIG).events = [.tSpinMini] := by
  have hct : lockClearType kickState postT = .tSpinMini := by decide
  have hspec := processLock_clear_spec kickState DEFAULT_GAME_CONFIG postT rfl (by decide)
  exact ⟨by decide, by decide, rfl, by decide, hct, by rw [hspec.2.2.2.1, hct]⟩

/-- Claim C10: outside the playing phase, updateGame returns the state
unchanged and an empty event list, for every elapsed time, action set,
bag-refill supply and configuration. -/
theorem updateGame_nonplaying (supply : ℕ → List TetrominoType) (state : GameState)
    (deltaMs : ℚ) (actions : InputActions) (config : GameConfig)
    (h : state.phase ≠ .playing) :
    updateGame supply state deltaMs actions config = ⟨state, []⟩ := by
  rw [updateGame, if_pos h]

/-- Witness for updateGame_nonplaying: the menu state. -/
theorem updateGame_nonplaying_witness :
    menuState.phase ≠ GamePhase.playing ∧
    updateGame (fun _ => PIECE_TYPES) menuState 16 noActions DEFAULT_GAME_CONFIG =
      ⟨menuState, []⟩ :=
  ⟨by decide,
   updateGame_nonplaying (fun _ => PIECE_TYPES) menuState 16 noActions
     DEFAULT_GAME_CONFIG (by decide)⟩

/-! Phase preservation through the per-tick stages (Board.ts). -/

theorem processHold_phase (refill : List TetrominoType) (state : GameState)
    (config : GameConfig) :
    (processHold refill state config).state.phase = state.phase := by
  unfold processHold
  dsimp only
  repeat' split
  all_goals rfl

theorem processRotation_phase (state : GameState) (direction : RotationDirection) :
    (processRotation state direction).state.phase = state.phase := by
  unfold processRotation
  dsimp only
  repeat' split
  all_goals rfl

theorem processMove_phase (state : GameState) (dx dy : ℤ) (config : GameConfig) :
    (processMove state dx dy config).state.phase = state.phase := by
  unfold processMove
  dsimp only
  repeat' split
  all_goals rfl

theorem processGravity_phase (state : GameState) (deltaMs : ℚ) (softDrop : Bool)
    (config : GameConfig) :
    (processGravity state deltaMs softDrop config).state.phase = state.phase := by
  unfold processGravity
  dsimp only
  repeat' split
  all_goals rfl

theorem processLock_phase (state : GameState) (config : GameConfig) :
    (processLock state config).state.phase = state.phase := by
  unfold processLock
  dsimp only
  repeat' split
  all_goals rfl

theorem processHardDrop_phase (state : GameState) (config : GameConfig) :
    (processHardDrop state config).state.phase = state.phase := by
  unfold processHardDrop
  split
  · rfl
  · exact processLock_phase _ config

theorem stageClock_phase (deltaMs : ℚ) (state : GameState) :
    (stageClock deltaMs state).phase = state.phase := rfl

theorem stageHeatDecay_phase (deltaMs : ℚ) (state : GameState) :
    (stageHeatDecay deltaMs state).phase = state.phase := by
  unfold stageHeatDecay
  dsimp only
  split <;> rfl

theorem stageHold_phase (refill : List TetrominoType) (actions : InputActions)
    (config : GameConfig) (state : GameState) :
    (stageHold refill actions config state).state.phase = state.phase := by
  unfold stageHold
  split
  · exact processHold_phase refill state config
  · rfl

theorem stageRotation_phase (actions : InputActions) (state : GameState) :
    (stageRotation actions state).state.phase = state.phase := by
  unfold stageRotation
  repeat' split
  all_goals first
  | rfl
  | exact processRotation_phase state _

theorem stageMove_phase (actions : InputActions) (config : GameConfig)
    (state : GameState) :
    (stageMove actions config state).state.phase = state.phase := by
  unfold stageMove
  repeat' split
  all_goals first
  | rfl
  | exact processMove_phase state _ _ config

theorem stageDrop_phase (actions : InputActions) (deltaMs : ℚ) (config : GameConfig)
    (state : GameState) :
    (stageDrop actions deltaMs config state).state.phase = state.phase := by
  unfold stageDrop
  repeat' split
  all_goals first
  | rfl
  | exact processHardDrop_phase state config
  | exact processGravity_phase state deltaMs actions.softDrop config

theorem stageLockDelay_phase (deltaMs : ℚ) (config : GameConfig) (state : GameState) :
    (stageLockDelay deltaMs config state).state.phase = state.phase := by
  unfold stageLockDelay
  dsimp only
  repeat' split
  all_goals first
  | rfl
  | exact processLock_phase _ config

theorem updateCore_phase (supply : ℕ → List TetrominoType) (state : GameState)
    (deltaMs : ℚ) (actions : InputActions) (config : GameConfig) :
    (updateCore supply state deltaMs actions config).state.phase = state.phase := by
  unfold updateCore
  rw [stageLockDelay_phase, stageDrop_phase, stageMove_phase, stageRotation_phase,
    stageHold_phase, stageHeatDecay_phase, stageClock_phase]

/-! Heat bounds through the per-tick stages (scoring.ts and Board.ts). -/

theorem processHold_streak (refill : List TetrominoType) (state : GameState)
    (config : GameConfig) :
    (processHold refill state config).state.streak = state.streak := by
  unfold processHold
  dsimp only
  repeat' split
  all_goals rfl

theorem processRotation_streak (state : GameState) (direction : RotationDirection) :
    (processRotation state direction).state.streak = state.streak := by
  unfold processRotation
  dsimp only
  repeat' split
  all_goals rfl

theorem processMove_streak (state : GameState) (dx dy : ℤ) (config : GameConfig) :
    (processMove state dx dy config).state.streak = state.streak := by
  unfold processMove
  dsimp only
  repeat' split
  all_goals rfl

theorem processGravity_streak (state : GameState) (deltaMs : ℚ) (softDrop : Bool)
    (config : GameConfig) :
    (processGravity state deltaMs softDrop config).state.streak = state.streak := by
  unfold processGravity
  dsimp only
  repeat' split
  all_goals rfl

theorem processSpawn_streak (refill : List TetrominoType) (state : GameState)
    (config : GameConfig) :
    (processSpawn refill state config).state.streak = state.streak := by
  unfold processSpawn
  dsimp only
  repeat' split
  all_goals rfl

theorem calculateHeatContribution_nonneg (ct : ClearType) (combo : ℕ) (b2b : Bool) :
    0 ≤ calculateHeatContribution ct combo b2b DEFAULT_HEAT_CONFIG := by
  have hch : 0 ≤ DEFAULT_HEAT_CONFIG.clearHeat ct := by
    cases ct <;> norm_num [DEFAULT_HEAT_CONFIG]
  have hstep : 0 ≤ DEFAULT_HEAT_CONFIG.clearHeat ct *
      DEFAULT_HEAT_CONFIG.comboMultiplier * (combo : ℚ) := by
    refine mul_nonneg (mul_nonneg hch ?_) ?_
    · norm_num [DEFAULT_HEAT_CONFIG]
    · positivity
  have hbase : 0 ≤ DEFAULT_HEAT_CONFIG.clearHeat ct +
      DEFAULT_HEAT_CONFIG.clearHeat ct *
        DEFAULT_HEAT_CONFIG.comboMultiplier * (combo : ℚ) := by linarith
  unfold calculateHeatContribution
  dsimp only
  refine le_min ?_ ?_
  · split
    · refine mul_nonneg hbase ?_
      norm_num [DEFAULT_HEAT_CONFIG]
    · exact hbase
  · norm_num [DEFAULT_HEAT_CONFIG]

theorem processLock_heat (state : GameState) (config : GameConfig)
    (h0 : 0 ≤ state.streak.heatLevel) (h1 : state.streak.heatLevel ≤ 1) :
    0 ≤ (processLock state config).state.streak.heatLevel ∧
      (processLock state config).state.streak.heatLevel ≤ 1 := by
  unfold processLock
  dsimp only
  repeat' split
  all_goals first
  | exact ⟨h0, h1⟩
  | exact ⟨le_min (by norm_num) (add_nonneg h0 (calculateHeatContribution_nonneg _ _ _)),
      min_le_left _ _⟩

theorem processHardDrop_heat (state : GameState) (config : GameConfig)
    (h0 : 0 ≤ state.streak.heatLevel) (h1 : state.streak.heatLevel ≤ 1) :
    0 ≤ (processHardDrop state config).state.streak.heatLevel ∧
      (processHardDrop state config).state.streak.heatLevel ≤ 1 := by
  unfold processHardDrop
  dsimp only
  split
  · exact ⟨h0, h1⟩
  · exact processLock_heat _ config h0 h1

theorem decayHeat_bounds (h deltaMs : ℚ) (h0 : 0 ≤ h) (h1 : h ≤ 1) (hδ : 0 ≤ deltaMs) :
    0 ≤ decayHeat h deltaMs DEFAULT_HEAT_CONFIG ∧
      decayHeat h deltaMs DEFAULT_HEAT_CONFIG ≤ 1 := by
  unfold decayHeat
  constructor
  · exact le_max_left _ _
  · have hd : 0 ≤ DEFAULT_HEAT_CONFIG.decayPerSecond * (deltaMs / 1000) := by
      refine mul_nonneg ?_ (by positivity)
      norm_num [DEFAULT_HEAT_CONFIG]
    exact max_le (by norm_num) (by linarith)

theorem stageHeatDecay_heat (deltaMs : ℚ) (state : GameState)
    (h0 : 0 ≤ state.streak.heatLevel) (h1 : state.streak.heatLevel ≤ 1)
    (hδ : 0 ≤ deltaMs) :
    0 ≤ (stageHeatDecay deltaMs state).streak.heatLevel ∧
      (stageHeatDecay deltaMs state).streak.heatLevel ≤ 1 := by
  unfold stageHeatDecay
  dsimp only
  split
  · exact decayHeat_bounds state.streak.heatLevel deltaMs h0 h1 hδ
  · exact ⟨h0, h1⟩

theorem stageHold_streak (refill : List TetrominoType) (actions : InputActions)
    (config : GameConfig) (state : GameState) :
    (stageHold refill actions config state).state.streak = state.streak := by
  unfold stageHold
  split
  · exact processHold_streak refill state config
  · rfl

theorem stageRotation_streak (actions : InputActions) (state : GameState) :
    (stageRotation actions state).state.streak = state.streak := by
  unfold stageRotation
  repeat' split
  all_goals first
  | rfl
  | exact processRotation_streak state _

theorem stageMove_streak (actions : InputActions) (config : GameConfig)
    (state : GameState) :
    (stageMove actions config state).state.streak = state.streak := by
  unfold stageMove
  repeat' split
  all_goals first
  | rfl
  | exact processMove_streak state _ _ config

theorem stageDrop_heat (actions : InputActions) (deltaMs : ℚ) (config : GameConfig)
    (state : GameState)
    (h0 : 0 ≤ state.streak.heatLevel) (h1 : state.streak.heatLevel ≤ 1) :
    0 ≤ (stageDrop actions deltaMs config state).state.streak.heatLevel ∧
      (stageDrop actions deltaMs config state).state.streak.heatLevel ≤ 1 := by
  unfold stageDrop
  split
  · exact processHardDrop_heat state config h0 h1
  · split
    · rw [processGravity_streak]
      exact ⟨h0, h1⟩
    · exact ⟨h0, h1⟩

theorem stageLockDelay_heat (deltaMs : ℚ) (config : GameConfig) (state : GameState)
    (h0 : 0 ≤ state.streak.heatLevel) (h1 : state.streak.heatLevel ≤ 1) :
    0 ≤ (stageLockDelay deltaMs config state).state.streak.heatLevel ∧
      (stageLockDelay deltaMs config state).state.streak.heatLevel ≤ 1 := by
  unfold stageLockDelay
  dsimp only
  repeat' split
  all_goals first
  | exact ⟨h0, h1⟩
  | exact processLock_heat _ config h0 h1

theorem updateCore_heat (supply : ℕ → List TetrominoType) (state : GameState)
    (deltaMs : ℚ) (actions : InputActions) (config : GameConfig)
    (h0 : 0 ≤ state.streak.heatLevel) (h1 : state.streak.heatLevel ≤ 1)
    (hδ : 0 ≤ deltaMs) :
    0 ≤ (updateCore supply state deltaMs actions config).state.streak.heatLevel ∧
      (updateCore supply state deltaMs actions config).state.streak.heatLevel ≤ 1 := by
  unfold updateCore
  dsimp only
  have hs2 := stageHeatDecay_heat deltaMs (stageClock deltaMs state) h0 h1 hδ
  have hhold := stageHold_streak (supply 0) actions config
    (stageHeatDecay deltaMs (stageClock deltaMs state))
  have hrot := stageRotation_streak actions
    (stageHold (supply 0) actions config
      (stageHeatDecay deltaMs (stageClock deltaMs state))).state
  have hmove := stageMove_streak actions config
    (stageRotation actions
      (stageHold (supply 0) actions config
        (stageHeatDecay deltaMs (stageClock deltaMs state))).state).state
  have hmr : (stageMove actions config
      (stageRotation actions
        (stageHold (supply 0) actions config
          (stageHeatDecay deltaMs (stageClock deltaMs state))).state).state).state.streak =
      (stageHeatDecay deltaMs (stageClock deltaMs state)).streak := by
    rw [hmove, hrot, hhold]
  have hdrop := stageDrop_heat actions deltaMs config _
    (by rw [hmr]; exact hs2.1) (by rw [hmr]; exact hs2.2)
  exact stageLockDelay_heat deltaMs config _ hdrop.1 hdrop.2

/-- Claim C8: one game-loop update keeps the heat level inside [0,1], for
every nonnegative elapsed time, every action set, every bag-refill supply
and every configuration. -/
theorem updateGame_heat_bounds (supply : ℕ → List TetrominoType) (state : GameState)
    (deltaMs : ℚ) (actions : InputActions) (config : GameConfig)
    (h0 : 0 ≤ state.streak.heatLevel) (h1 : state.streak.heatLevel ≤ 1)
    (hδ : 0 ≤ deltaMs) :
    0 ≤ (updateGame supply state deltaMs actions config).state.streak.heatLevel ∧
      (updateGame supply state deltaMs actions config).state.streak.heatLevel ≤ 1 := by
  unfold updateGame
  split
  · exact ⟨h0, h1⟩
  · dsimp only
    have hcore := updateCore_heat supply state deltaMs actions config h0 h1 hδ
    split
    · rw [processSpawn_streak]
      exact hcore
    · exact hcore

/-- Witness for updateGame_heat_bounds: an idle tick on `noClearState`. -/
theorem updateGame_heat_bounds_witness :
    (0 ≤ noClearState.streak.heatLevel ∧ noClearState.streak.heatLevel ≤ 1 ∧
      (0 : ℚ) ≤ 16) ∧
    (0 ≤ (updateGame (fun _ => PIECE_TYPES) noClearState 16 noActions
        DEFAULT_GAME_CONFIG).state.streak.heatLevel ∧
      (updateGame (fun _ => PIECE_TYPES) noClearState 16 noActions
        DEFAULT_GAME_CONFIG).state.streak.heatLevel ≤ 1) :=
  ⟨⟨by norm_num [noClearState, baseGameState], by norm_num [noClearState, baseGameState],
    by norm_num⟩,
   updateGame_heat_bounds (fun _ => PIECE_TYPES) noClearState 16 noActions
     DEFAULT_GAME_CONFIG (by norm_num [noClearState, baseGameState])
     (by norm_num [noClearState, baseGameState]) (by norm_num)⟩

/-! Game-over events through the per-tick stages (Board.ts). -/

theorem hasGameOver_append (l1 l2 : List GameEvent) :
    hasGameOver (l1 ++ l2) = (hasGameOver l1 || hasGameOver l2) :=
  List.any_append

theorem hasGameOver_ite (c : Prop) [Decidable c] (l1 l2 : List GameEvent) :
    hasGameOver (if c then l1 else l2) =
      if c then hasGameOver l1 else hasGameOver l2 :=
  apply_ite hasGameOver c l1 l2

theorem levelUpLoop_any_gameOver (a b : ℕ) :
    ∀ (fuel level remaining : ℕ),
      (levelUpLoop a b fuel level remaining).2.2.any GameEvent.isGameOverEvent = false := by
  intro fuel
  induction fuel with
  | zero => intro level remaining; rfl
  | succ f ih =>
    intro level remaining
    rw [levelUpLoop]
    split
    · simp only [List.any_cons, ih (level + 1) (remaining - a)]
      rfl
    · rfl

theorem processLock_hasGameOver (state : GameState) (config : GameConfig) :
    hasGameOver (processLock state config).events = false := by
  unfold processLock
  dsimp only
  repeat' split
  all_goals
    simp [hasGameOver, List.any_append, List.any_cons, GameEvent.isGameOverEvent,
      levelUpLoop_any_gameOver]

theorem processHold_hasGameOver (refill : List TetrominoType) (state : GameState)
    (config : GameConfig) :
    hasGameOver (processHold refill state config).events = false := by
  unfold processHold
  dsimp only
  repeat' split
  all_goals rfl

theorem processRotation_hasGameOver (state : GameState) (direction : RotationDirection) :
    hasGameOver (processRotation state direction).events = false := by
  unfold processRotation
  dsimp only
  repeat' split
  all_goals rfl

theorem processMove_hasGameOver (state : GameState) (dx dy : ℤ) (config : GameConfig) :
    hasGameOver (processMove state dx dy config).events = false := by
  unfold processMove
  dsimp only
  repeat' split
  all_goals rfl

theorem processGravity_hasGameOver (state : GameState) (deltaMs : ℚ) (softDrop : Bool)
    (config : GameConfig) :
    hasGameOver (processGravity state deltaMs softDrop config).events = false := by
  unfold processGravity
  dsimp only
  repeat' split
  all_goals rfl

theorem processHardDrop_hasGameOver (state : GameState) (config : GameConfig) :
    hasGameOver (processHardDrop state config).events = false := by
  unfold processHardDrop
  dsimp only
  split
  · rfl
  · rw [hasGameOver_append]
    rw [processLock_hasGameOver]
    rfl

theorem stageHold_hasGameOver (refill : List TetrominoType) (actions : InputActions)
    (config : GameConfig) (state : GameState) :
    hasGameOver (stageHold refill actions config state).events = false := by
  unfold stageHold
  split
  · exact processHold_hasGameOver refill state config
  · rfl

theorem stageRotation_hasGameOver (actions : InputActions) (state : GameState) :
    hasGameOver (stageRotation actions state).events = false := by
  unfold stageRotation
  repeat' split
  all_goals first
  | rfl
  | exact processRotation_hasGameOver state _

theorem stageMove_hasGameOver (actions : InputActions) (config : GameConfig)
    (state : GameState) :
    hasGameOver (stageMove actions config state).events = false := by
  unfold stageMove
  repeat' split
  all_goals first
  | rfl
  | exact processMove_hasGameOver state _ _ config

theorem stageDrop_hasGameOver (actions : InputActions) (deltaMs : ℚ)
    (config : GameConfig) (state : GameState) :
    hasGameOver (stageDrop actions deltaMs config state).events = false := by
  unfold stageDrop
  repeat' split
  all_goals first
  | rfl
  | exact processHardDrop_hasGameOver state config
  | exact processGravity_hasGameOver state deltaMs actions.softDrop config

theorem stageLockDelay_hasGameOver (deltaMs : ℚ) (config : GameConfig)
    (state : GameState) :
    hasGameOver (stageLockDelay deltaMs config state).events = false := by
  unfold stageLockDelay
  dsimp only
  repeat' split
  all_goals first
  | rfl
  | exact processLock_hasGameOver _ config

theorem updateCore_hasGameOver (supply : ℕ → List TetrominoType) (state : GameState)
    (deltaMs : ℚ) (actions : InputActions) (config : GameConfig) :
    hasGameOver (updateCore supply state deltaMs actions config).events = false := by
  unfold updateCore
  dsimp only
  rw [hasGameOver_append, hasGameOver_append, hasGameOver_append, hasGameOver_append,
    stageHold_hasGameOver, stageRotation_hasGameOver, stageMove_hasGameOver,
    stageDrop_hasGameOver, stageLockDelay_hasGameOver]
  rfl

theorem processSpawn_none (refill : List TetrominoType) (state : GameState)
    (config : GameConfig)
    (h : (spawnNextPiece refill state.board state.bag config).1 = none) :
    (processSpawn refill state config).state.phase = .gameOver ∧
      hasGameOver (processSpawn refill state config).events = true := by
  simp only [processSpawn, h]
  exact ⟨trivial, rfl⟩

theorem processSpawn_some (refill : List TetrominoType) (state : GameState)
    (config : GameConfig) (p : ActivePiece)
    (h : (spawnNextPiece refill state.board state.bag config).1 = some p) :
    (processSpawn refill state config).state.phase = state.phase ∧
      hasGameOver (processSpawn refill state config).events = false := by
  simp only [processSpawn, h]
  exact ⟨trivial, rfl⟩

theorem hasGameOver_danger (d : ℚ) :
    hasGameOver (if 0 < d then [GameEvent.dangerZone true d] else []) = false := by
  split <;> rfl

/-- Claim C7: for a playing state, one game-loop update ends in phase
gameOver exactly when no piece remains active after the core stages and
spawning the replacement fails, and exactly then a game-over event is
emitted; nothing else in the tick causes a game over. -/
theorem updateGame_gameOver_iff (supply : ℕ → List TetrominoType) (state : GameState)
    (deltaMs : ℚ) (actions : InputActions) (config : GameConfig)
    (hplay : state.phase = .playing) :
    ((updateGame supply state deltaMs actions config).state.phase = .gameOver ↔
      ((updateCore supply state deltaMs actions config).state.activePiece = none ∧
        (spawnNextPiece (supply 1)
          (updateCore supply state deltaMs actions config).state.board
          (updateCore supply state deltaMs actions config).state.bag config).1 = none)) ∧
    ((updateGame supply state deltaMs actions config).state.phase = .gameOver ↔
      hasGameOver (updateGame supply state deltaMs actions config).events = true) := by
  have hcorephase := updateCore_phase supply state deltaMs actions config
  have hcorego := updateCore_hasGameOver supply state deltaMs actions config
  unfold updateGame
  rw [if_neg (by rw [hplay]; exact fun hc => hc rfl)]
  dsimp only
  by_cases hap : (updateCore supply state deltaMs actions config).state.activePiece = none
  · rcases hsp : (spawnNextPiece (supply 1)
        (updateCore supply state deltaMs actions config).state.board
        (updateCore supply state deltaMs actions config).state.bag config).1
      with _ | p
    · have hcond : (updateCore supply state deltaMs actions config).state.activePiece = none ∧
          (updateCore supply state deltaMs actions config).state.phase = .playing :=
        ⟨hap, by rw [hcorephase, hplay]⟩
      rw [if_pos hcond]
      have hgo := processSpawn_none (supply 1)
        (updateCore supply state deltaMs actions config).state config hsp
      constructor
      · rw [hgo.1]
        simp [hap, hsp]
      · rw [hgo.1, hasGameOver_append, hasGameOver_append, hcorego, hgo.2,
          hasGameOver_danger]
        simp
    · have hcond : (updateCore supply state deltaMs actions config).state.activePiece = none ∧
          (updateCore supply state deltaMs actions config).state.phase = .playing :=
        ⟨hap, by rw [hcorephase, hplay]⟩
      rw [if_pos hcond]
      have hgo := processSpawn_some (supply 1)
        (updateCore supply state deltaMs actions config).state config p hsp
      have hphp : (processSpawn (supply 1)
          (updateCore supply state deltaMs actions config).state config).state.phase =
          .playing := by rw [hgo.1, hcorephase, hplay]
      constructor
      · rw [hphp]
        simp [hsp]
      · rw [hphp, hasGameOver_append, hasGameOver_append, hcorego, hgo.2,
          hasGameOver_danger]
        simp
  · rw [if_neg (fun hc => hap hc.1)]
    have hph : (updateCore supply state deltaMs actions config).state.phase = .playing := by
      rw [hcorephase, hplay]
    constructor
    · rw [hph]
      simp [hap]
    · rw [hph, hasGameOver_append, hcorego, hasGameOver_danger]
      simp

/-- Witness for updateGame_gameOver_iff: an idle tick on `noClearState`. -/
theorem updateGame_gameOver_iff_witness :
    noClearState.phase = GamePhase.playing ∧
    (((updateGame (fun _ => PIECE_TYPES) noClearState 16 noActions
        DEFAULT_GAME_CONFIG).state.phase = .gameOver ↔
      ((updateCore (fun _ => PIECE_TYPES) noClearState 16 noActions
          DEFAULT_GAME_CONFIG).state.activePiece = none ∧
        (spawnNextPiece ((fun _ => PIECE_TYPES) 1)
          (updateCore (fun _ => PIECE_TYPES) noClearState 16 noActions
            DEFAULT_GAME_CONFIG).state.board
          (updateCore (fun _ => PIECE_TYPES) noClearState 16 noActions
            DEFAULT_GAME_CONFIG).state.bag DEFAULT_GAME_CONFIG).1 = none)) ∧
     ((updateGame (fun _ => PIECE_TYPES) noClearState 16 noActions
        DEFAULT_GAME_CONFIG).state.phase = .gameOver ↔
      hasGameOver (updateGame (fun _ => PIECE_TYPES) noClearState 16 noActions
        DEFAULT_GAME_CONFIG).events = true)) :=
  ⟨rfl,
   updateGame_gameOver_iff (fun _ => PIECE_TYPES) noClearState 16 noActions
     DEFAULT_GAME_CONFIG rfl⟩

end Tetris
